import Mathlib

/-!
Verification of the grid-math crate (src/src/lib.rs).

Shallow embedding conventions:
* `u8` values are modelled as `Nat`; theorems carry explicit `≤ 255` bounds
  where the Rust `u8` type silently provides them.
* A Rust panic (within_panic, bounds violation, native overflow/underflow of
  `u8` arithmetic, division by zero) is modelled as `none`; `sub8`, `add8`
  and `mod8` are the checked primitives used at every arithmetic site of the
  source that can overflow, underflow, or divide by zero.
* Boolean guard expressions (`will_underflow_*`, `will_overflow_*`, `within`)
  are modelled as plain `Bool` computations: thanks to the short-circuit
  semantics of Rust `||` and `&&`, none of the arithmetic inside those
  expressions can overflow when it is actually evaluated, so truncated `Nat`
  subtraction agrees with the Rust value there (for `step ≤ 255`).
-/

set_option maxRecDepth 4000

/-- A grid cell: `global_width`, `global_depth` are `u8` in the source. -/
structure Cell where
  global_width : Nat
  global_depth : Nat
deriving DecidableEq, Repr

/-- A grid: inclusive `start` and `end` cells (`end` is a Lean keyword, so
the field is named `end_`). -/
structure Grid where
  start : Cell
  end_ : Cell
deriving DecidableEq, Repr

/-- Checked u8 subtraction: `none` models the Rust underflow panic. -/
def sub8 (a b : Nat) : Option Nat :=
  if b ≤ a then some (a - b) else none

/-- Checked u8 addition: `none` models the Rust overflow panic. -/
def add8 (a b : Nat) : Option Nat :=
  if a + b ≤ 255 then some (a + b) else none

/-- Checked u8 remainder: `none` models the Rust division-by-zero panic. -/
def mod8 (a b : Nat) : Option Nat :=
  if b = 0 then none else some (a % b)

/-- `Cell::within`: both coordinates inside the inclusive ranges of the grid. -/
def Cell.within (c : Cell) (g : Grid) : Bool :=
  (decide (g.start.global_width ≤ c.global_width) &&
    decide (c.global_width ≤ g.end_.global_width)) &&
  (decide (g.start.global_depth ≤ c.global_depth) &&
    decide (c.global_depth ≤ g.end_.global_depth))

/-- `Cell::width`: relative width; panics (`none`) when not within. -/
def Cell.width (c : Cell) (g : Grid) : Option Nat :=
  if c.within g then sub8 c.global_width g.start.global_width else none

/-- `Cell::width_gap`: distance to the right border; panics when not within. -/
def Cell.width_gap (c : Cell) (g : Grid) : Option Nat :=
  if c.within g then sub8 g.end_.global_width c.global_width else none

/-- `Cell::depth`: relative depth; panics when not within. -/
def Cell.depth (c : Cell) (g : Grid) : Option Nat :=
  if c.within g then sub8 c.global_depth g.start.global_depth else none

/-- `Cell::depth_gap`: distance to the lower border; panics when not within. -/
def Cell.depth_gap (c : Cell) (g : Grid) : Option Nat :=
  if c.within g then sub8 g.end_.global_depth c.global_depth else none

/-- `Cell::will_underflow_depth` (guard of the `up` moves). -/
def Cell.will_underflow_depth (c : Cell) (g : Grid) (step : Nat) : Option Bool :=
  if c.within g then
    some (decide (c.global_depth < step) ||
      decide (c.global_depth - step < g.start.global_depth))
  else none

/-- `Cell::will_overflow_depth` (guard of the `down` moves). -/
def Cell.will_overflow_depth (c : Cell) (g : Grid) (step : Nat) : Option Bool :=
  if c.within g then
    some (decide (255 - step < c.global_depth) ||
      decide (g.end_.global_depth < c.global_depth + step))
  else none

/-- `Cell::will_underflow_width` (guard of the `left` moves). -/
def Cell.will_underflow_width (c : Cell) (g : Grid) (step : Nat) : Option Bool :=
  if c.within g then
    some (decide (c.global_width < step) ||
      decide (c.global_width - step < g.start.global_width))
  else none

/-- `Cell::will_overflow_width` (guard of the `right` moves). -/
def Cell.will_overflow_width (c : Cell) (g : Grid) (step : Nat) : Option Bool :=
  if c.within g then
    some (decide (255 - step < c.global_width) ||
      decide (g.end_.global_width < c.global_width + step))
  else none

/-- `Cell::strict_up`: panics when the guard fires, else subtracts. -/
def Cell.strict_up (c : Cell) (g : Grid) (step : Nat) : Option Cell :=
  (c.will_underflow_depth g step).bind fun b =>
    if b then none
    else (sub8 c.global_depth step).bind fun d =>
      some ⟨c.global_width, d⟩

/-- `Cell::strict_down`. -/
def Cell.strict_down (c : Cell) (g : Grid) (step : Nat) : Option Cell :=
  (c.will_overflow_depth g step).bind fun b =>
    if b then none
    else (add8 c.global_depth step).bind fun d =>
      some ⟨c.global_width, d⟩

/-- `Cell::strict_left`. -/
def Cell.strict_left (c : Cell) (g : Grid) (step : Nat) : Option Cell :=
  (c.will_underflow_width g step).bind fun b =>
    if b then none
    else (sub8 c.global_width step).bind fun w =>
      some ⟨w, c.global_depth⟩

/-- `Cell::strict_right`. -/
def Cell.strict_right (c : Cell) (g : Grid) (step : Nat) : Option Cell :=
  (c.will_overflow_width g step).bind fun b =>
    if b then none
    else (add8 c.global_width step).bind fun w =>
      some ⟨w, c.global_depth⟩

/-- `Cell::saturating_up`: clamps to the upper border instead of panicking. -/
def Cell.saturating_up (c : Cell) (g : Grid) (step : Nat) : Option Cell :=
  (c.will_underflow_depth g step).bind fun b =>
    (if b then some g.start.global_depth else sub8 c.global_depth step).bind fun d =>
      some ⟨c.global_width, d⟩

/-- `Cell::saturating_down`. -/
def Cell.saturating_down (c : Cell) (g : Grid) (step : Nat) : Option Cell :=
  (c.will_overflow_depth g step).bind fun b =>
    (if b then some g.end_.global_depth else add8 c.global_depth step).bind fun d =>
      some ⟨c.global_width, d⟩

/-- `Cell::saturating_left`. -/
def Cell.saturating_left (c : Cell) (g : Grid) (step : Nat) : Option Cell :=
  (c.will_underflow_width g step).bind fun b =>
    (if b then some g.start.global_width else sub8 c.global_width step).bind fun w =>
      some ⟨w, c.global_depth⟩

/-- `Cell::saturating_right`. -/
def Cell.saturating_right (c : Cell) (g : Grid) (step : Nat) : Option Cell :=
  (c.will_overflow_width g step).bind fun b =>
    (if b then some g.end_.global_width else add8 c.global_width step).bind fun w =>
      some ⟨w, c.global_depth⟩

/-- `Grid::width`: `end - start + 1` computed in u8 (can overflow for a
full-span axis, modelled by `none`). -/
def Grid.width (g : Grid) : Option Nat :=
  (sub8 g.end_.global_width g.start.global_width).bind fun a => add8 a 1

/-- `Grid::depth`. -/
def Grid.depth (g : Grid) : Option Nat :=
  (sub8 g.end_.global_depth g.start.global_depth).bind fun a => add8 a 1

/-- `Grid::size`: widened to u16 before the multiplication, which therefore
cannot overflow (`width, depth ≤ 255` whenever they are defined). -/
def Grid.size (g : Grid) : Option Nat :=
  (g.width).bind fun w => (g.depth).bind fun d => some (w * d)

/-- `Cell::overflowing_up`: wraps past the upper border; the modulus
`grid.depth()` is only computed on the wrapping branch, as in the source. -/
def Cell.overflowing_up (c : Cell) (g : Grid) (step : Nat) : Option (Cell × Bool) :=
  (c.will_underflow_depth g step).bind fun underflowed =>
    (if underflowed then
        (c.depth g).bind fun rel =>
          (sub8 step rel).bind fun t =>
            (sub8 t 1).bind fun t1 =>
              (g.depth).bind fun l =>
                (mod8 t1 l).bind fun m =>
                  sub8 g.end_.global_depth m
      else sub8 c.global_depth step).bind fun d =>
      some (⟨c.global_width, d⟩, underflowed)

/-- `Cell::overflowing_down`. -/
def Cell.overflowing_down (c : Cell) (g : Grid) (step : Nat) : Option (Cell × Bool) :=
  (c.will_overflow_depth g step).bind fun overflowed =>
    (if overflowed then
        (c.depth_gap g).bind fun gap =>
          (sub8 step gap).bind fun t =>
            (sub8 t 1).bind fun t1 =>
              (g.depth).bind fun l =>
                (mod8 t1 l).bind fun m =>
                  add8 g.start.global_depth m
      else add8 c.global_depth step).bind fun d =>
      some (⟨c.global_width, d⟩, overflowed)

/-- `Cell::overflowing_left`. -/
def Cell.overflowing_left (c : Cell) (g : Grid) (step : Nat) : Option (Cell × Bool) :=
  (c.will_underflow_width g step).bind fun underflowed =>
    (if underflowed then
        (c.width g).bind fun rel =>
          (sub8 step rel).bind fun t =>
            (sub8 t 1).bind fun t1 =>
              (g.width).bind fun l =>
                (mod8 t1 l).bind fun m =>
                  sub8 g.end_.global_width m
      else sub8 c.global_width step).bind fun w =>
      some (⟨w, c.global_depth⟩, underflowed)

/-- `Cell::overflowing_right`. -/
def Cell.overflowing_right (c : Cell) (g : Grid) (step : Nat) : Option (Cell × Bool) :=
  (c.will_overflow_width g step).bind fun overflowed =>
    (if overflowed then
        (c.width_gap g).bind fun gap =>
          (sub8 step gap).bind fun t =>
            (sub8 t 1).bind fun t1 =>
              (g.width).bind fun l =>
                (mod8 t1 l).bind fun m =>
                  add8 g.start.global_width m
      else add8 c.global_width step).bind fun w =>
      some (⟨w, c.global_depth⟩, overflowed)

/-- `Cell::wrapping_up`: `overflowing_up` with the flag discarded. -/
def Cell.wrapping_up (c : Cell) (g : Grid) (step : Nat) : Option Cell :=
  (c.overflowing_up g step).map Prod.fst

/-- `Cell::wrapping_down`. -/
def Cell.wrapping_down (c : Cell) (g : Grid) (step : Nat) : Option Cell :=
  (c.overflowing_down g step).map Prod.fst

/-- `Cell::wrapping_left`. -/
def Cell.wrapping_left (c : Cell) (g : Grid) (step : Nat) : Option Cell :=
  (c.overflowing_left g step).map Prod.fst

/-- `Cell::wrapping_right`. -/
def Cell.wrapping_right (c : Cell) (g : Grid) (step : Nat) : Option Cell :=
  (c.overflowing_right g step).map Prod.fst

/-- `Cell::project_up`: saturating move with the maximum u8 step. -/
def Cell.project_up (c : Cell) (g : Grid) : Option Cell :=
  c.saturating_up g 255

/-- `Cell::project_down`. -/
def Cell.project_down (c : Cell) (g : Grid) : Option Cell :=
  c.saturating_down g 255

/-- `Cell::project_left`. -/
def Cell.project_left (c : Cell) (g : Grid) : Option Cell :=
  c.saturating_left g 255

/-- `Cell::project_right`. -/
def Cell.project_right (c : Cell) (g : Grid) : Option Cell :=
  c.saturating_right g 255

/-- `Grid::new`: origin-anchored grid; panics for zero width or depth. -/
def Grid.new (width depth : Nat) : Option Grid :=
  if width < 1 || depth < 1 then none
  else some ⟨⟨0, 0⟩, ⟨width - 1, depth - 1⟩⟩

/-- `Grid::indented`: grid anchored at `indent`; the additions
`indent + width` and `indent + depth` are u8 and can overflow. -/
def Grid.indented (width depth : Nat) (indent : Nat × Nat) : Option Grid :=
  if width < 1 || depth < 1 then none
  else
    (add8 indent.1 width).bind fun ew =>
      (add8 indent.2 depth).bind fun ed =>
        some ⟨⟨indent.1, indent.2⟩, ⟨ew - 1, ed - 1⟩⟩

/-- `impl From<(Cell, Cell)> for Grid`: panics when `start` exceeds `end`
on either axis. -/
def Grid.fromCells (value : Cell × Cell) : Option Grid :=
  if value.1.global_width > value.2.global_width ||
      value.1.global_depth > value.2.global_depth then none
  else some ⟨value.1, value.2⟩

/-- `impl From<((u8,u8),(u8,u8))> for Grid`. -/
def Grid.fromPairs (value : (Nat × Nat) × (Nat × Nat)) : Option Grid :=
  Grid.fromCells (⟨value.1.1, value.1.2⟩, ⟨value.2.1, value.2.2⟩)

/-- `Grid::area`: subgrid of the given extents anchored at `start`. -/
def Grid.area (g : Grid) (width depth : Nat) : Option Grid :=
  if width < 1 || depth < 1 then none
  else
    (g.start.strict_right g (width - 1)).bind fun e1 =>
      (e1.strict_down g (depth - 1)).bind fun e2 =>
        some ⟨g.start, e2⟩

/-- `Grid::slice`: subgrid anchored at `start + indent`; the step arguments
`indent.0 + width` and `indent.1 + depth` are computed in u8. -/
def Grid.slice (g : Grid) (width depth : Nat) (indent : Nat × Nat) : Option Grid :=
  if width < 1 || depth < 1 then none
  else
    (g.start.strict_right g indent.1).bind fun s1 =>
      (s1.strict_down g indent.2).bind fun s2 =>
        (add8 indent.1 width).bind fun uw =>
          (add8 indent.2 depth).bind fun ud =>
            (g.start.strict_right g (uw - 1)).bind fun e1 =>
              (e1.strict_down g (ud - 1)).bind fun e2 =>
                some ⟨s2, e2⟩

/-- Iterator over every cell of a grid (struct `Cells`). -/
structure Cells where
  grid : Grid
  current : Cell
  consumed : Bool
deriving DecidableEq, Repr

/-- `impl From<Grid> for Cells`. -/
def Cells.fromGrid (grid : Grid) : Cells :=
  ⟨grid, grid.start, false⟩

/-- `impl Iterator for Cells::next`, in state-passing form: the outer `none`
models a panic inside the advance step, `some (none, it)` models `None`. -/
def Cells.next (it : Cells) : Option (Option Cell × Cells) :=
  if it.consumed then some (none, it)
  else if it.current = it.grid.end_ then
    some (some it.current, { it with consumed := true })
  else
    (it.current.overflowing_right it.grid 1).bind fun r =>
      match r with
      | (n, true) =>
          (n.wrapping_down it.grid 1).bind fun n2 =>
            some (some it.current, { it with current := n2 })
      | (n, false) => some (some it.current, { it with current := n })

/-- Iterator over the rows of a grid (struct `Rows`). -/
structure Rows where
  grid : Grid
  current : Grid
  consumed : Bool
deriving DecidableEq, Repr

/-- `impl From<Grid> for Rows`: the initial cursor spans the full top row. -/
def Rows.fromGrid (grid : Grid) : Option Rows :=
  (grid.start.project_right grid).map fun e =>
    ⟨grid, ⟨grid.start, e⟩, false⟩

/-- `impl Iterator for Rows::next`. -/
def Rows.next (it : Rows) : Option (Option Grid × Rows) :=
  if it.consumed then some (none, it)
  else if it.current.end_ = it.grid.end_ then
    some (some it.current, { it with consumed := true })
  else
    (it.current.start.saturating_down it.grid 1).bind fun s =>
      (it.current.end_.saturating_down it.grid 1).bind fun e =>
        some (some it.current, { it with current := ⟨s, e⟩ })

/-- Iterator over the columns of a grid (struct `Columns`). -/
structure Columns where
  grid : Grid
  current : Grid
  consumed : Bool
deriving DecidableEq, Repr

/-- `impl From<Grid> for Columns`: the initial cursor spans the full left
column. -/
def Columns.fromGrid (grid : Grid) : Option Columns :=
  (grid.start.project_down grid).map fun e =>
    ⟨grid, ⟨grid.start, e⟩, false⟩

/-- `impl Iterator for Columns::next`. -/
def Columns.next (it : Columns) : Option (Option Grid × Columns) :=
  if it.consumed then some (none, it)
  else if it.current.end_ = it.grid.end_ then
    some (some it.current, { it with consumed := true })
  else
    (it.current.start.saturating_right it.grid 1).bind fun s =>
      (it.current.end_.saturating_right it.grid 1).bind fun e =>
        some (some it.current, { it with current := ⟨s, e⟩ })

/-- Fueled driver: repeatedly calls `step` and collects the yielded items,
stopping on the first `None` yield. An outer `none` (a panic inside `step`)
aborts the whole run with `none`. -/
def collect {σ α : Type} (step : σ → Option (Option α × σ)) : Nat → σ → Option (List α)
  | 0, _ => some []
  | fuel + 1, s =>
    match step s with
    | none => none
    | some (none, _) => some []
    | some (some a, s1) => (collect step fuel s1).map (fun l => a :: l)

/-! ### Spec-level abbreviations and basic evaluation lemmas -/

/-- Mathematical width extent of a grid (the value `Grid::width` returns
when it does not overflow). -/
def Grid.wExtent (g : Grid) : Nat :=
  g.end_.global_width - g.start.global_width + 1

/-- Mathematical depth extent of a grid. -/
def Grid.dExtent (g : Grid) : Nat :=
  g.end_.global_depth - g.start.global_depth + 1

/-- Both axes of the grid are non-decreasing (the Region invariant). -/
def Grid.Ordered (g : Grid) : Prop :=
  g.start.global_width ≤ g.end_.global_width ∧
    g.start.global_depth ≤ g.end_.global_depth

instance (g : Grid) : Decidable g.Ordered := by
  rw [Grid.Ordered]; infer_instance

/-- The coordinates of the grid fit the u8 domain. -/
def Grid.InU8 (g : Grid) : Prop :=
  g.end_.global_width ≤ 255 ∧ g.end_.global_depth ≤ 255

instance (g : Grid) : Decidable g.InU8 := by
  rw [Grid.InU8]; infer_instance

/-- A well-formed grid whose axis extents also fit u8 (extent at most 255,
so `Grid::width` and `Grid::depth` do not overflow). -/
def Grid.Proper (g : Grid) : Prop :=
  g.Ordered ∧ g.InU8 ∧
    g.end_.global_width - g.start.global_width ≤ 254 ∧
    g.end_.global_depth - g.start.global_depth ≤ 254

instance (g : Grid) : Decidable g.Proper := by
  rw [Grid.Proper]; infer_instance

lemma sub8_pos {a b : Nat} (h : b ≤ a) : sub8 a b = some (a - b) := by
  rw [sub8, if_pos h]

lemma add8_pos {a b : Nat} (h : a + b ≤ 255) : add8 a b = some (a + b) := by
  rw [add8, if_pos h]

lemma mod8_pos {a b : Nat} (h : b ≠ 0) : mod8 a b = some (a % b) := by
  rw [mod8, if_neg h]

lemma sub8_eq_some {a b x : Nat} : sub8 a b = some x ↔ b ≤ a ∧ x = a - b := by
  by_cases h : b ≤ a <;> simp [sub8, h, eq_comm]

lemma add8_eq_some {a b x : Nat} : add8 a b = some x ↔ a + b ≤ 255 ∧ x = a + b := by
  by_cases h : a + b ≤ 255 <;> simp [add8, h, eq_comm]

lemma mod8_eq_some {a b x : Nat} : mod8 a b = some x ↔ b ≠ 0 ∧ x = a % b := by
  by_cases h : b = 0 <;> simp [mod8, h, eq_comm]

lemma within_iff {c : Cell} {g : Grid} :
    c.within g = true ↔
      g.start.global_width ≤ c.global_width ∧
      c.global_width ≤ g.end_.global_width ∧
      g.start.global_depth ≤ c.global_depth ∧
      c.global_depth ≤ g.end_.global_depth := by
  simp [Cell.within, and_assoc]

lemma Grid.width_eval {g : Grid}
    (h1 : g.start.global_width ≤ g.end_.global_width)
    (h2 : g.end_.global_width - g.start.global_width ≤ 254) :
    g.width = some g.wExtent := by
  rw [Grid.width, sub8_pos h1, Option.some_bind, add8_pos (by omega)]
  rfl

lemma Grid.depth_eval {g : Grid}
    (h1 : g.start.global_depth ≤ g.end_.global_depth)
    (h2 : g.end_.global_depth - g.start.global_depth ≤ 254) :
    g.depth = some g.dExtent := by
  rw [Grid.depth, sub8_pos h1, Option.some_bind, add8_pos (by omega)]
  rfl

lemma Grid.width_eq_some {g : Grid} {w : Nat} :
    g.width = some w ↔
      g.start.global_width ≤ g.end_.global_width ∧
      g.end_.global_width - g.start.global_width ≤ 254 ∧ w = g.wExtent := by
  rw [Grid.width]
  by_cases h1 : g.start.global_width ≤ g.end_.global_width
  · rw [sub8_pos h1, Option.some_bind]
    simp [add8_eq_some, Grid.wExtent, h1]
  · rw [show sub8 g.end_.global_width g.start.global_width = none from by
      rw [sub8, if_neg h1]]
    simp [h1]

lemma Grid.depth_eq_some {g : Grid} {d : Nat} :
    g.depth = some d ↔
      g.start.global_depth ≤ g.end_.global_depth ∧
      g.end_.global_depth - g.start.global_depth ≤ 254 ∧ d = g.dExtent := by
  rw [Grid.depth]
  by_cases h1 : g.start.global_depth ≤ g.end_.global_depth
  · rw [sub8_pos h1, Option.some_bind]
    simp [add8_eq_some, Grid.dExtent, h1]
  · rw [show sub8 g.end_.global_depth g.start.global_depth = none from by
      rw [sub8, if_neg h1]]
    simp [h1]

lemma will_underflow_depth_eval {c : Cell} {g : Grid} {step : Nat}
    (hw : c.within g = true) :
    c.will_underflow_depth g step =
      some (decide (c.global_depth < g.start.global_depth + step)) := by
  have h := within_iff.mp hw
  rw [Cell.will_underflow_depth, if_pos hw]
  congr 1
  rw [Bool.eq_iff_iff]
  simp only [Bool.or_eq_true, decide_eq_true_eq]
  omega

lemma will_overflow_depth_eval {c : Cell} {g : Grid} {step : Nat}
    (hw : c.within g = true) (hs : step ≤ 255)
    (hE : g.end_.global_depth ≤ 255) :
    c.will_overflow_depth g step =
      some (decide (g.end_.global_depth < c.global_depth + step)) := by
  have h := within_iff.mp hw
  rw [Cell.will_overflow_depth, if_pos hw]
  congr 1
  rw [Bool.eq_iff_iff]
  simp only [Bool.or_eq_true, decide_eq_true_eq]
  omega

lemma will_underflow_width_eval {c : Cell} {g : Grid} {step : Nat}
    (hw : c.within g = true) :
    c.will_underflow_width g step =
      some (decide (c.global_width < g.start.global_width + step)) := by
  have h := within_iff.mp hw
  rw [Cell.will_underflow_width, if_pos hw]
  congr 1
  rw [Bool.eq_iff_iff]
  simp only [Bool.or_eq_true, decide_eq_true_eq]
  omega

lemma will_overflow_width_eval {c : Cell} {g : Grid} {step : Nat}
    (hw : c.within g = true) (hs : step ≤ 255)
    (hE : g.end_.global_width ≤ 255) :
    c.will_overflow_width g step =
      some (decide (g.end_.global_width < c.global_width + step)) := by
  have h := within_iff.mp hw
  rw [Cell.will_overflow_width, if_pos hw]
  congr 1
  rw [Bool.eq_iff_iff]
  simp only [Bool.or_eq_true, decide_eq_true_eq]
  omega

lemma strict_up_eval {c : Cell} {g : Grid} {step : Nat}
    (hw : c.within g = true) :
    c.strict_up g step =
      if c.global_depth < g.start.global_depth + step then none
      else some ⟨c.global_width, c.global_depth - step⟩ := by
  have h := within_iff.mp hw
  rw [Cell.strict_up, will_underflow_depth_eval hw, Option.some_bind]
  by_cases hc : c.global_depth < g.start.global_depth + step
  · simp [hc]
  · simp only [hc, decide_False, Bool.false_eq_true, if_false, if_neg hc]
    rw [sub8_pos (by omega), Option.some_bind]

lemma strict_down_eval {c : Cell} {g : Grid} {step : Nat}
    (hw : c.within g = true) (hs : step ≤ 255)
    (hE : g.end_.global_depth ≤ 255) :
    c.strict_down g step =
      if g.end_.global_depth < c.global_depth + step then none
      else some ⟨c.global_width, c.global_depth + step⟩ := by
  have h := within_iff.mp hw
  rw [Cell.strict_down, will_overflow_depth_eval hw hs hE, Option.some_bind]
  by_cases hc : g.end_.global_depth < c.global_depth + step
  · simp [hc]
  · simp only [hc, decide_False, Bool.false_eq_true, if_false, if_neg hc]
    rw [add8_pos (by omega), Option.some_bind]

lemma strict_left_eval {c : Cell} {g : Grid} {step : Nat}
    (hw : c.within g = true) :
    c.strict_left g step =
      if c.global_width < g.start.global_width + step then none
      else some ⟨c.global_width - step, c.global_depth⟩ := by
  have h := within_iff.mp hw
  rw [Cell.strict_left, will_underflow_width_eval hw, Option.some_bind]
  by_cases hc : c.global_width < g.start.global_width + step
  · simp [hc]
  · simp only [hc, decide_False, Bool.false_eq_true, if_false, if_neg hc]
    rw [sub8_pos (by omega), Option.some_bind]

lemma strict_right_eval {c : Cell} {g : Grid} {step : Nat}
    (hw : c.within g = true) (hs : step ≤ 255)
    (hE : g.end_.global_width ≤ 255) :
    c.strict_right g step =
      if g.end_.global_width < c.global_width + step then none
      else some ⟨c.global_width + step, c.global_depth⟩ := by
  have h := within_iff.mp hw
  rw [Cell.strict_right, will_overflow_width_eval hw hs hE, Option.some_bind]
  by_cases hc : g.end_.global_width < c.global_width + step
  · simp [hc]
  · simp only [hc, decide_False, Bool.false_eq_true, if_false, if_neg hc]
    rw [add8_pos (by omega), Option.some_bind]

lemma saturating_up_eval {c : Cell} {g : Grid} {step : Nat}
    (hw : c.within g = true) :
    c.saturating_up g step =
      some ⟨c.global_width, max g.start.global_depth (c.global_depth - step)⟩ := by
  have h := within_iff.mp hw
  rw [Cell.saturating_up, will_underflow_depth_eval hw, Option.some_bind]
  by_cases hc : c.global_depth < g.start.global_depth + step
  · simp only [hc, decide_True, if_true, Option.some_bind]
    congr 2
    omega
  · simp only [hc, decide_False, Bool.false_eq_true, if_false]
    rw [sub8_pos (by omega), Option.some_bind]
    congr 2
    omega

lemma saturating_down_eval {c : Cell} {g : Grid} {step : Nat}
    (hw : c.within g = true) (hs : step ≤ 255)
    (hE : g.end_.global_depth ≤ 255) :
    c.saturating_down g step =
      some ⟨c.global_width, min (c.global_depth + step) g.end_.global_depth⟩ := by
  have h := within_iff.mp hw
  rw [Cell.saturating_down, will_overflow_depth_eval hw hs hE, Option.some_bind]
  by_cases hc : g.end_.global_depth < c.global_depth + step
  · simp only [hc, decide_True, if_true, Option.some_bind]
    congr 2
    omega
  · simp only [hc, decide_False, Bool.false_eq_true, if_false]
    rw [add8_pos (by omega), Option.some_bind]
    congr 2
    omega

lemma saturating_left_eval {c : Cell} {g : Grid} {step : Nat}
    (hw : c.within g = true) :
    c.saturating_left g step =
      some ⟨max g.start.global_width (c.global_width - step), c.global_depth⟩ := by
  have h := within_iff.mp hw
  rw [Cell.saturating_left, will_underflow_width_eval hw, Option.some_bind]
  by_cases hc : c.global_width < g.start.global_width + step
  · simp only [hc, decide_True, if_true, Option.some_bind]
    congr 2
    omega
  · simp only [hc, decide_False, Bool.false_eq_true, if_false]
    rw [sub8_pos (by omega), Option.some_bind]
    congr 2
    omega

lemma saturating_right_eval {c : Cell} {g : Grid} {step : Nat}
    (hw : c.within g = true) (hs : step ≤ 255)
    (hE : g.end_.global_width ≤ 255) :
    c.saturating_right g step =
      some ⟨min (c.global_width + step) g.end_.global_width, c.global_depth⟩ := by
  have h := within_iff.mp hw
  rw [Cell.saturating_right, will_overflow_width_eval hw hs hE, Option.some_bind]
  by_cases hc : g.end_.global_width < c.global_width + step
  · simp only [hc, decide_True, if_true, Option.some_bind]
    congr 2
    omega
  · simp only [hc, decide_False, Bool.false_eq_true, if_false]
    rw [add8_pos (by omega), Option.some_bind]
    congr 2
    omega

/-! ### Modular arithmetic of the wraparound formulas -/

/-- Wraparound in the increasing direction: the source formula
`step - gap - 1` taken mod `W` equals the cyclic position `(rel + step) % W`. -/
lemma wrap_pos {W rel s : Nat} (hrel : rel < W) (hcross : W ≤ rel + s) :
    (s - (W - 1 - rel) - 1) % W = (rel + s) % W := by
  have h1 : s - (W - 1 - rel) - 1 = rel + s - W := by omega
  rw [h1, ← Nat.mod_eq_sub_mod hcross]

/-- Wraparound in the decreasing direction: the source value
`(W - 1) - ((s - rel - 1) % W)` equals the cyclic position
`(rel + (W - s % W)) % W`. -/
lemma wrap_neg {W rel s : Nat} (hrel : rel < W) (hcross : rel < s) :
    W - 1 - ((s - rel - 1) % W) = (rel + (W - s % W)) % W := by
  have hW : 0 < W := by omega
  obtain ⟨q, r, hqr, hr⟩ : ∃ q r, s = W * q + r ∧ r < W :=
    ⟨s / W, s % W, (Nat.div_add_mod s W).symm, Nat.mod_lt s hW⟩
  have hsr : s % W = r := by
    rw [hqr, Nat.add_comm, Nat.add_mul_mod_self_left, Nat.mod_eq_of_lt hr]
  rw [hsr, hqr]
  rcases Nat.lt_or_ge rel r with h | h
  · have h1 : W * q + r - rel - 1 = (r - rel - 1) + W * q := by omega
    rw [h1, Nat.add_mul_mod_self_left,
      Nat.mod_eq_of_lt (show r - rel - 1 < W by omega),
      Nat.mod_eq_of_lt (show rel + (W - r) < W by omega)]
    omega
  · obtain ⟨q1, rfl⟩ : ∃ q1, q = q1 + 1 := by
      rcases Nat.eq_zero_or_pos q with h0 | h0
      · exfalso
        rw [h0] at hqr
        omega
      · exact ⟨q - 1, by omega⟩
    have h1 : W * (q1 + 1) + r - rel - 1 = (W - (rel + 1 - r)) + W * q1 := by
      have : W * (q1 + 1) = W * q1 + W := by ring
      omega
    have h2 : rel + (W - r) = (rel - r) + W := by omega
    rw [h1, Nat.add_mul_mod_self_left,
      Nat.mod_eq_of_lt (show W - (rel + 1 - r) < W by omega),
      h2, Nat.add_mod_right,
      Nat.mod_eq_of_lt (show rel - r < W by omega)]
    omega

/-! ### Master evaluation lemmas for the overflowing moves

For a cell within a proper grid the overflowing move along an axis of
extent `L` lands at relative position `(rel + step) % L` (increasing
direction) or `(rel + (L - step % L)) % L` (decreasing direction), and the
flag is set exactly on border-crossing moves. -/

lemma overflowing_right_eval {c : Cell} {g : Grid} {step : Nat}
    (hw : c.within g = true) (hs : step ≤ 255)
    (hE : g.end_.global_width ≤ 255)
    (hX : g.end_.global_width - g.start.global_width ≤ 254) :
    c.overflowing_right g step =
      some (⟨g.start.global_width +
          (c.global_width - g.start.global_width + step) % g.wExtent,
          c.global_depth⟩,
        decide (g.end_.global_width < c.global_width + step)) := by
  have h := within_iff.mp hw
  have hL : 0 < g.wExtent := by rw [Grid.wExtent]; omega
  rw [Cell.overflowing_right, will_overflow_width_eval hw hs hE, Option.some_bind]
  by_cases hc : g.end_.global_width < c.global_width + step
  · simp only [hc, decide_True, if_true]
    rw [Cell.width_gap, if_pos hw, sub8_pos (by omega), Option.some_bind,
      sub8_pos (show g.end_.global_width - c.global_width ≤ step by omega),
      Option.some_bind,
      sub8_pos (show 1 ≤ step - (g.end_.global_width - c.global_width) by omega),
      Option.some_bind,
      Grid.width_eval (by omega) hX, Option.some_bind,
      mod8_pos (by omega), Option.some_bind]
    have hm : (step - (g.end_.global_width - c.global_width) - 1) % g.wExtent
        < g.wExtent := Nat.mod_lt _ hL
    have hWeq : g.wExtent = g.end_.global_width - g.start.global_width + 1 := rfl
    rw [add8_pos (by omega), Option.some_bind]
    have harg : g.end_.global_width - c.global_width =
        g.wExtent - 1 - (c.global_width - g.start.global_width) := by
      rw [Grid.wExtent]; omega
    rw [harg, wrap_pos (by rw [Grid.wExtent]; omega) (by rw [Grid.wExtent]; omega)]
  · simp only [hc, decide_False, Bool.false_eq_true, if_false]
    rw [add8_pos (by omega), Option.some_bind]
    have hlt : c.global_width - g.start.global_width + step < g.wExtent := by
      rw [Grid.wExtent]; omega
    rw [Nat.mod_eq_of_lt hlt]
    congr 3
    omega

lemma overflowing_down_eval {c : Cell} {g : Grid} {step : Nat}
    (hw : c.within g = true) (hs : step ≤ 255)
    (hE : g.end_.global_depth ≤ 255)
    (hX : g.end_.global_depth - g.start.global_depth ≤ 254) :
    c.overflowing_down g step =
      some (⟨c.global_width,
          g.start.global_depth +
            (c.global_depth - g.start.global_depth + step) % g.dExtent⟩,
        decide (g.end_.global_depth < c.global_depth + step)) := by
  have h := within_iff.mp hw
  have hL : 0 < g.dExtent := by rw [Grid.dExtent]; omega
  rw [Cell.overflowing_down, will_overflow_depth_eval hw hs hE, Option.some_bind]
  by_cases hc : g.end_.global_depth < c.global_depth + step
  · simp only [hc, decide_True, if_true]
    rw [Cell.depth_gap, if_pos hw, sub8_pos (by omega), Option.some_bind,
      sub8_pos (show g.end_.global_depth - c.global_depth ≤ step by omega),
      Option.some_bind,
      sub8_pos (show 1 ≤ step - (g.end_.global_depth - c.global_depth) by omega),
      Option.some_bind,
      Grid.depth_eval (by omega) hX, Option.some_bind,
      mod8_pos (by omega), Option.some_bind]
    have hm : (step - (g.end_.global_depth - c.global_depth) - 1) % g.dExtent
        < g.dExtent := Nat.mod_lt _ hL
    have hDeq : g.dExtent = g.end_.global_depth - g.start.global_depth + 1 := rfl
    rw [add8_pos (by omega), Option.some_bind]
    have harg : g.end_.global_depth - c.global_depth =
        g.dExtent - 1 - (c.global_depth - g.start.global_depth) := by
      rw [Grid.dExtent]; omega
    rw [harg, wrap_pos (by rw [Grid.dExtent]; omega) (by rw [Grid.dExtent]; omega)]
  · simp only [hc, decide_False, Bool.false_eq_true, if_false]
    rw [add8_pos (by omega), Option.some_bind]
    have hlt : c.global_depth - g.start.global_depth + step < g.dExtent := by
      rw [Grid.dExtent]; omega
    rw [Nat.mod_eq_of_lt hlt]
    congr 3
    omega

lemma overflowing_left_eval {c : Cell} {g : Grid} {step : Nat}
    (hw : c.within g = true)
    (hX : g.end_.global_width - g.start.global_width ≤ 254) :
    c.overflowing_left g step =
      some (⟨g.start.global_width +
          (c.global_width - g.start.global_width +
            (g.wExtent - step % g.wExtent)) % g.wExtent,
          c.global_depth⟩,
        decide (c.global_width < g.start.global_width + step)) := by
  have h := within_iff.mp hw
  have hL : 0 < g.wExtent := by rw [Grid.wExtent]; omega
  rw [Cell.overflowing_left, will_underflow_width_eval hw, Option.some_bind]
  by_cases hc : c.global_width < g.start.global_width + step
  · simp only [hc, decide_True, if_true]
    rw [Cell.width, if_pos hw, sub8_pos (by omega), Option.some_bind,
      sub8_pos (show c.global_width - g.start.global_width ≤ step by omega),
      Option.some_bind,
      sub8_pos (show 1 ≤ step - (c.global_width - g.start.global_width) by omega),
      Option.some_bind,
      Grid.width_eval (by omega) hX, Option.some_bind,
      mod8_pos (by omega), Option.some_bind]
    have hm : (step - (c.global_width - g.start.global_width) - 1) % g.wExtent
        < g.wExtent := Nat.mod_lt _ hL
    have hWeq : g.wExtent = g.end_.global_width - g.start.global_width + 1 := rfl
    rw [sub8_pos (by omega), Option.some_bind]
    have hend : g.end_.global_width -
        (step - (c.global_width - g.start.global_width) - 1) % g.wExtent =
        g.start.global_width +
          (g.wExtent - 1 -
            (step - (c.global_width - g.start.global_width) - 1) % g.wExtent) := by
      omega
    rw [hend, wrap_neg (by rw [Grid.wExtent]; omega) (by omega)]
  · simp only [hc, decide_False, Bool.false_eq_true, if_false]
    rw [sub8_pos (by omega), Option.some_bind]
    have hsw : step % g.wExtent = step := by
      apply Nat.mod_eq_of_lt
      rw [Grid.wExtent]; omega
    rw [hsw]
    have h2 : c.global_width - g.start.global_width + (g.wExtent - step) =
        (c.global_width - g.start.global_width - step) + g.wExtent := by
      rw [Grid.wExtent]; omega
    rw [h2, Nat.add_mod_right,
      Nat.mod_eq_of_lt (show c.global_width - g.start.global_width - step
        < g.wExtent by rw [Grid.wExtent]; omega)]
    congr 3
    omega

lemma overflowing_up_eval {c : Cell} {g : Grid} {step : Nat}
    (hw : c.within g = true)
    (hX : g.end_.global_depth - g.start.global_depth ≤ 254) :
    c.overflowing_up g step =
      some (⟨c.global_width,
          g.start.global_depth +
            (c.global_depth - g.start.global_depth +
              (g.dExtent - step % g.dExtent)) % g.dExtent⟩,
        decide (c.global_depth < g.start.global_depth + step)) := by
  have h := within_iff.mp hw
  have hL : 0 < g.dExtent := by rw [Grid.dExtent]; omega
  rw [Cell.overflowing_up, will_underflow_depth_eval hw, Option.some_bind]
  by_cases hc : c.global_depth < g.start.global_depth + step
  · simp only [hc, decide_True, if_true]
    rw [Cell.depth, if_pos hw, sub8_pos (by omega), Option.some_bind,
      sub8_pos (show c.global_depth - g.start.global_depth ≤ step by omega),
      Option.some_bind,
      sub8_pos (show 1 ≤ step - (c.global_depth - g.start.global_depth) by omega),
      Option.some_bind,
      Grid.depth_eval (by omega) hX, Option.some_bind,
      mod8_pos (by omega), Option.some_bind]
    have hm : (step - (c.global_depth - g.start.global_depth) - 1) % g.dExtent
        < g.dExtent := Nat.mod_lt _ hL
    have hDeq : g.dExtent = g.end_.global_depth - g.start.global_depth + 1 := rfl
    rw [sub8_pos (by omega), Option.some_bind]
    have hend : g.end_.global_depth -
        (step - (c.global_depth - g.start.global_depth) - 1) % g.dExtent =
        g.start.global_depth +
          (g.dExtent - 1 -
            (step - (c.global_depth - g.start.global_depth) - 1) % g.dExtent) := by
      omega
    rw [hend, wrap_neg (by rw [Grid.dExtent]; omega) (by omega)]
  · simp only [hc, decide_False, Bool.false_eq_true, if_false]
    rw [sub8_pos (by omega), Option.some_bind]
    have hsw : step % g.dExtent = step := by
      apply Nat.mod_eq_of_lt
      rw [Grid.dExtent]; omega
    rw [hsw]
    have h2 : c.global_depth - g.start.global_depth + (g.dExtent - step) =
        (c.global_depth - g.start.global_depth - step) + g.dExtent := by
      rw [Grid.dExtent]; omega
    rw [h2, Nat.add_mod_right,
      Nat.mod_eq_of_lt (show c.global_depth - g.start.global_depth - step
        < g.dExtent by rw [Grid.dExtent]; omega)]
    congr 3
    omega

/-! ### Panic on a start cell outside the grid -/

lemma will_underflow_depth_not_within {c : Cell} {g : Grid} {step : Nat}
    (hw : ¬ c.within g = true) : c.will_underflow_depth g step = none := by
  rw [Cell.will_underflow_depth, if_neg hw]

lemma will_overflow_depth_not_within {c : Cell} {g : Grid} {step : Nat}
    (hw : ¬ c.within g = true) : c.will_overflow_depth g step = none := by
  rw [Cell.will_overflow_depth, if_neg hw]

lemma will_underflow_width_not_within {c : Cell} {g : Grid} {step : Nat}
    (hw : ¬ c.within g = true) : c.will_underflow_width g step = none := by
  rw [Cell.will_underflow_width, if_neg hw]

lemma will_overflow_width_not_within {c : Cell} {g : Grid} {step : Nat}
    (hw : ¬ c.within g = true) : c.will_overflow_width g step = none := by
  rw [Cell.will_overflow_width, if_neg hw]

/-! ### Closure of the moves: any returned cell is within the grid -/

lemma strict_up_some_within {c : Cell} {g : Grid} {step : Nat} {c' : Cell}
    (h : c.strict_up g step = some c') : c'.within g = true := by
  by_cases hw : c.within g = true
  · rw [strict_up_eval hw] at h
    have hwi := within_iff.mp hw
    split at h
    · exact absurd h (by simp)
    · rw [Option.some.injEq] at h
      subst h
      rw [within_iff]
      simp only [not_lt] at *
      omega
  · rw [Cell.strict_up, will_underflow_depth_not_within hw, Option.none_bind] at h
    exact absurd h (by simp)

lemma strict_left_some_within {c : Cell} {g : Grid} {step : Nat} {c' : Cell}
    (h : c.strict_left g step = some c') : c'.within g = true := by
  by_cases hw : c.within g = true
  · rw [strict_left_eval hw] at h
    have hwi := within_iff.mp hw
    split at h
    · exact absurd h (by simp)
    · rw [Option.some.injEq] at h
      subst h
      rw [within_iff]
      simp only [not_lt] at *
      omega
  · rw [Cell.strict_left, will_underflow_width_not_within hw, Option.none_bind] at h
    exact absurd h (by simp)

lemma strict_down_some_within {c : Cell} {g : Grid} {step : Nat} {c' : Cell}
    (h : c.strict_down g step = some c') : c'.within g = true := by
  by_cases hw : c.within g = true
  · have hwi := within_iff.mp hw
    rw [Cell.strict_down, Cell.will_overflow_depth, if_pos hw, Option.some_bind] at h
    split at h
    · exact absurd h (by simp)
    · next hb =>
      simp only [Bool.or_eq_true, decide_eq_true_eq, not_or, not_lt] at hb
      simp only [Option.bind_eq_some, add8_eq_some, Option.some.injEq] at h
      obtain ⟨d, ⟨hd1, hd2⟩, hc'⟩ := h
      subst hc'
      rw [within_iff]
      simp only
      omega
  · rw [Cell.strict_down, will_overflow_depth_not_within hw, Option.none_bind] at h
    exact absurd h (by simp)

lemma strict_right_some_within {c : Cell} {g : Grid} {step : Nat} {c' : Cell}
    (h : c.strict_right g step = some c') : c'.within g = true := by
  by_cases hw : c.within g = true
  · have hwi := within_iff.mp hw
    rw [Cell.strict_right, Cell.will_overflow_width, if_pos hw, Option.some_bind] at h
    split at h
    · exact absurd h (by simp)
    · next hb =>
      simp only [Bool.or_eq_true, decide_eq_true_eq, not_or, not_lt] at hb
      simp only [Option.bind_eq_some, add8_eq_some, Option.some.injEq] at h
      obtain ⟨w, ⟨hw1, hw2⟩, hc'⟩ := h
      subst hc'
      rw [within_iff]
      simp only
      omega
  · rw [Cell.strict_right, will_overflow_width_not_within hw, Option.none_bind] at h
    exact absurd h (by simp)

lemma saturating_up_some_within {c : Cell} {g : Grid} {step : Nat} {c' : Cell}
    (h : c.saturating_up g step = some c') : c'.within g = true := by
  by_cases hw : c.within g = true
  · rw [saturating_up_eval hw, Option.some.injEq] at h
    have hwi := within_iff.mp hw
    subst h
    rw [within_iff]
    simp only
    omega
  · rw [Cell.saturating_up, will_underflow_depth_not_within hw, Option.none_bind] at h
    exact absurd h (by simp)

lemma saturating_left_some_within {c : Cell} {g : Grid} {step : Nat} {c' : Cell}
    (h : c.saturating_left g step = some c') : c'.within g = true := by
  by_cases hw : c.within g = true
  · rw [saturating_left_eval hw, Option.some.injEq] at h
    have hwi := within_iff.mp hw
    subst h
    rw [within_iff]
    simp only
    omega
  · rw [Cell.saturating_left, will_underflow_width_not_within hw, Option.none_bind] at h
    exact absurd h (by simp)

lemma saturating_down_some_within {c : Cell} {g : Grid} {step : Nat} {c' : Cell}
    (h : c.saturating_down g step = some c') : c'.within g = true := by
  by_cases hw : c.within g = true
  · have hwi := within_iff.mp hw
    rw [Cell.saturating_down, Cell.will_overflow_depth, if_pos hw, Option.some_bind] at h
    split at h
    · next hb =>
      simp only [Option.some_bind, Option.some.injEq] at h
      subst h
      rw [within_iff]
      simp only
      omega
    · next hb =>
      simp only [Bool.or_eq_true, decide_eq_true_eq, not_or, not_lt] at hb
      simp only [Option.bind_eq_some, add8_eq_some, Option.some.injEq] at h
      obtain ⟨d, ⟨hd1, hd2⟩, hc'⟩ := h
      subst hc'
      rw [within_iff]
      simp only
      omega
  · rw [Cell.saturating_down, will_overflow_depth_not_within hw, Option.none_bind] at h
    exact absurd h (by simp)

lemma saturating_right_some_within {c : Cell} {g : Grid} {step : Nat} {c' : Cell}
    (h : c.saturating_right g step = some c') : c'.within g = true := by
  by_cases hw : c.within g = true
  · have hwi := within_iff.mp hw
    rw [Cell.saturating_right, Cell.will_overflow_width, if_pos hw, Option.some_bind] at h
    split at h
    · next hb =>
      simp only [Option.some_bind, Option.some.injEq] at h
      subst h
      rw [within_iff]
      simp only
      omega
    · next hb =>
      simp only [Bool.or_eq_true, decide_eq_true_eq, not_or, not_lt] at hb
      simp only [Option.bind_eq_some, add8_eq_some, Option.some.injEq] at h
      obtain ⟨w, ⟨hw1, hw2⟩, hc'⟩ := h
      subst hc'
      rw [within_iff]
      simp only
      omega
  · rw [Cell.saturating_right, will_overflow_width_not_within hw, Option.none_bind] at h
    exact absurd h (by simp)

lemma overflowing_right_some_within {c : Cell} {g : Grid} {step : Nat}
    {c' : Cell} {f : Bool}
    (h : c.overflowing_right g step = some (c', f)) : c'.within g = true := by
  by_cases hw : c.within g = true
  · have hwi := within_iff.mp hw
    rw [Cell.overflowing_right, Cell.will_overflow_width, if_pos hw,
      Option.some_bind] at h
    split at h
    · next hb =>
      simp only [Cell.width_gap, hw, if_true, Grid.width, Option.bind_eq_some,
        sub8_eq_some, add8_eq_some, mod8_eq_some, Option.some.injEq,
        Prod.mk.injEq] at h
      obtain ⟨w, ⟨gap, ⟨hg1, hg2⟩, t, ⟨ht1, ht2⟩, t1, ⟨h11, h12⟩, l,
        ⟨a, ⟨ha1, ha2⟩, hl1, hl2⟩, m, ⟨hlne, hm⟩, hw1, hw2⟩, hc', hf⟩ := h
      subst hc'
      have hmlt : m < l := by
        subst hm
        exact Nat.mod_lt _ (Nat.pos_of_ne_zero hlne)
      rw [within_iff]
      simp only
      omega
    · next hb =>
      simp only [Bool.or_eq_true, decide_eq_true_eq, not_or, not_lt] at hb
      simp only [Option.bind_eq_some, add8_eq_some, Option.some.injEq,
        Prod.mk.injEq] at h
      obtain ⟨w, ⟨hw1, hw2⟩, hc', hf⟩ := h
      subst hc'
      rw [within_iff]
      simp only
      omega
  · rw [Cell.overflowing_right, will_overflow_width_not_within hw,
      Option.none_bind] at h
    exact absurd h (by simp)

lemma overflowing_down_some_within {c : Cell} {g : Grid} {step : Nat}
    {c' : Cell} {f : Bool}
    (h : c.overflowing_down g step = some (c', f)) : c'.within g = true := by
  by_cases hw : c.within g = true
  · have hwi := within_iff.mp hw
    rw [Cell.overflowing_down, Cell.will_overflow_depth, if_pos hw,
      Option.some_bind] at h
    split at h
    · next hb =>
      simp only [Cell.depth_gap, hw, if_true, Grid.depth, Option.bind_eq_some,
        sub8_eq_some, add8_eq_some, mod8_eq_some, Option.some.injEq,
        Prod.mk.injEq] at h
      obtain ⟨d, ⟨gap, ⟨hg1, hg2⟩, t, ⟨ht1, ht2⟩, t1, ⟨h11, h12⟩, l,
        ⟨a, ⟨ha1, ha2⟩, hl1, hl2⟩, m, ⟨hlne, hm⟩, hd1, hd2⟩, hc', hf⟩ := h
      subst hc'
      have hmlt : m < l := by
        subst hm
        exact Nat.mod_lt _ (Nat.pos_of_ne_zero hlne)
      rw [within_iff]
      simp only
      omega
    · next hb =>
      simp only [Bool.or_eq_true, decide_eq_true_eq, not_or, not_lt] at hb
      simp only [Option.bind_eq_some, add8_eq_some, Option.some.injEq,
        Prod.mk.injEq] at h
      obtain ⟨d, ⟨hd1, hd2⟩, hc', hf⟩ := h
      subst hc'
      rw [within_iff]
      simp only
      omega
  · rw [Cell.overflowing_down, will_overflow_depth_not_within hw,
      Option.none_bind] at h
    exact absurd h (by simp)

lemma overflowing_left_some_within {c : Cell} {g : Grid} {step : Nat}
    {c' : Cell} {f : Bool}
    (h : c.overflowing_left g step = some (c', f)) : c'.within g = true := by
  by_cases hw : c.within g = true
  · have hwi := within_iff.mp hw
    rw [Cell.overflowing_left, Cell.will_underflow_width, if_pos hw,
      Option.some_bind] at h
    split at h
    · next hb =>
      simp only [Cell.width, hw, if_true, Grid.width, Option.bind_eq_some,
        sub8_eq_some, add8_eq_some, mod8_eq_some, Option.some.injEq,
        Prod.mk.injEq] at h
      obtain ⟨w, ⟨rel, ⟨hr1, hr2⟩, t, ⟨ht1, ht2⟩, t1, ⟨h11, h12⟩, l,
        ⟨a, ⟨ha1, ha2⟩, hl1, hl2⟩, m, ⟨hlne, hm⟩, hw1, hw2⟩, hc', hf⟩ := h
      subst hc'
      have hmlt : m < l := by
        subst hm
        exact Nat.mod_lt _ (Nat.pos_of_ne_zero hlne)
      rw [within_iff]
      simp only
      omega
    · next hb =>
      simp only [Bool.or_eq_true, decide_eq_true_eq, not_or, not_lt] at hb
      simp only [Option.bind_eq_some, sub8_eq_some, Option.some.injEq,
        Prod.mk.injEq] at h
      obtain ⟨w, ⟨hw1, hw2⟩, hc', hf⟩ := h
      subst hc'
      rw [within_iff]
      simp only
      omega
  · rw [Cell.overflowing_left, will_underflow_width_not_within hw,
      Option.none_bind] at h
    exact absurd h (by simp)

lemma overflowing_up_some_within {c : Cell} {g : Grid} {step : Nat}
    {c' : Cell} {f : Bool}
    (h : c.overflowing_up g step = some (c', f)) : c'.within g = true := by
  by_cases hw : c.within g = true
  · have hwi := within_iff.mp hw
    rw [Cell.overflowing_up, Cell.will_underflow_depth, if_pos hw,
      Option.some_bind] at h
    split at h
    · next hb =>
      simp only [Cell.depth, hw, if_true, Grid.depth, Option.bind_eq_some,
        sub8_eq_some, add8_eq_some, mod8_eq_some, Option.some.injEq,
        Prod.mk.injEq] at h
      obtain ⟨d, ⟨rel, ⟨hr1, hr2⟩, t, ⟨ht1, ht2⟩, t1, ⟨h11, h12⟩, l,
        ⟨a, ⟨ha1, ha2⟩, hl1, hl2⟩, m, ⟨hlne, hm⟩, hd1, hd2⟩, hc', hf⟩ := h
      subst hc'
      have hmlt : m < l := by
        subst hm
        exact Nat.mod_lt _ (Nat.pos_of_ne_zero hlne)
      rw [within_iff]
      simp only
      omega
    · next hb =>
      simp only [Bool.or_eq_true, decide_eq_true_eq, not_or, not_lt] at hb
      simp only [Option.bind_eq_some, sub8_eq_some, Option.some.injEq,
        Prod.mk.injEq] at h
      obtain ⟨d, ⟨hd1, hd2⟩, hc', hf⟩ := h
      subst hc'
      rw [within_iff]
      simp only
      omega
  · rw [Cell.overflowing_up, will_underflow_depth_not_within hw,
      Option.none_bind] at h
    exact absurd h (by simp)

lemma strict_right_some_val {c : Cell} {g : Grid} {step : Nat} {c' : Cell}
    (h : c.strict_right g step = some c') :
    c' = ⟨c.global_width + step, c.global_depth⟩ ∧ c.within g = true ∧
      c.global_width + step ≤ g.end_.global_width := by
  by_cases hw : c.within g = true
  · rw [Cell.strict_right, Cell.will_overflow_width, if_pos hw, Option.some_bind] at h
    split at h
    · exact absurd h (by simp)
    · next hb =>
      simp only [Bool.or_eq_true, decide_eq_true_eq, not_or, not_lt] at hb
      simp only [Option.bind_eq_some, add8_eq_some, Option.some.injEq] at h
      obtain ⟨w, ⟨hw1, hw2⟩, hc'⟩ := h
      subst hw2
      exact ⟨hc'.symm, hw, hb.2⟩
  · rw [Cell.strict_right, will_overflow_width_not_within hw, Option.none_bind] at h
    exact absurd h (by simp)

lemma strict_down_some_val {c : Cell} {g : Grid} {step : Nat} {c' : Cell}
    (h : c.strict_down g step = some c') :
    c' = ⟨c.global_width, c.global_depth + step⟩ ∧ c.within g = true ∧
      c.global_depth + step ≤ g.end_.global_depth := by
  by_cases hw : c.within g = true
  · rw [Cell.strict_down, Cell.will_overflow_depth, if_pos hw, Option.some_bind] at h
    split at h
    · exact absurd h (by simp)
    · next hb =>
      simp only [Bool.or_eq_true, decide_eq_true_eq, not_or, not_lt] at hb
      simp only [Option.bind_eq_some, add8_eq_some, Option.some.injEq] at h
      obtain ⟨d, ⟨hd1, hd2⟩, hc'⟩ := h
      subst hd2
      exact ⟨hc'.symm, hw, hb.2⟩
  · rw [Cell.strict_down, will_overflow_depth_not_within hw, Option.none_bind] at h
    exact absurd h (by simp)

/-- C3: every Grid constructor (`new`, `indented`, `From<(Cell, Cell)>`,
`From<((u8,u8),(u8,u8))>`, `area`, `slice`) either signals a
construction-time error (modelled by `none`) or returns a grid satisfying
`start.width ≤ end.width` and `start.depth ≤ end.depth`. -/
theorem c3_constructors_ordered :
    (∀ w d g', Grid.new w d = some g' → g'.Ordered) ∧
    (∀ w d ind g', Grid.indented w d ind = some g' → g'.Ordered) ∧
    (∀ p g', Grid.fromCells p = some g' → g'.Ordered) ∧
    (∀ p g', Grid.fromPairs p = some g' → g'.Ordered) ∧
    (∀ g w d g', Grid.area g w d = some g' → g'.Ordered) ∧
    (∀ g w d ind g', Grid.slice g w d ind = some g' → g'.Ordered) := by
  have hfc : ∀ (p : Cell × Cell) g', Grid.fromCells p = some g' → g'.Ordered := by
    intro p g' h
    rw [Grid.fromCells] at h
    split at h
    · exact absurd h (by simp)
    · next hb =>
      simp only [Bool.or_eq_true, decide_eq_true_eq, not_or, not_lt] at hb
      rw [Option.some.injEq] at h
      subst h
      exact ⟨hb.1, hb.2⟩
  refine ⟨?_, ?_, hfc, fun p g' h => hfc _ g' h, ?_, ?_⟩
  · intro w d g' h
    rw [Grid.new] at h
    split at h
    · exact absurd h (by simp)
    · rw [Option.some.injEq] at h
      subst h
      exact ⟨Nat.zero_le _, Nat.zero_le _⟩
  · intro w d ind g' h
    rw [Grid.indented] at h
    split at h
    · exact absurd h (by simp)
    · next hb =>
      simp only [Bool.or_eq_true, decide_eq_true_eq, not_or, not_lt] at hb
      simp only [Option.bind_eq_some, add8_eq_some, Option.some.injEq] at h
      obtain ⟨ew, ⟨he1, he2⟩, ed, ⟨hd1, hd2⟩, hg⟩ := h
      subst hg
      constructor
      · simp only
        omega
      · simp only
        omega
  · intro g w d g' h
    rw [Grid.area] at h
    split at h
    · exact absurd h (by simp)
    · next hb =>
      simp only [Bool.or_eq_true, decide_eq_true_eq, not_or, not_lt] at hb
      simp only [Option.bind_eq_some, Option.some.injEq] at h
      obtain ⟨e1, he1, e2, he2, hg⟩ := h
      obtain ⟨he1v, hw1, hb1⟩ := strict_right_some_val he1
      obtain ⟨he2v, hw2, hb2⟩ := strict_down_some_val he2
      subst hg
      subst he1v
      subst he2v
      have hwi := within_iff.mp hw1
      constructor
      · simp only
        omega
      · simp only
        omega
  · intro g w d ind g' h
    rw [Grid.slice] at h
    split at h
    · exact absurd h (by simp)
    · next hb =>
      simp only [Bool.or_eq_true, decide_eq_true_eq, not_or, not_lt] at hb
      simp only [Option.bind_eq_some, add8_eq_some, Option.some.injEq] at h
      obtain ⟨s1, hs1, s2, hs2, uw, ⟨hu1, hu2⟩, ud, ⟨hv1, hv2⟩, e1, he1, e2, he2, hg⟩ := h
      obtain ⟨hs1v, hsw1, hsb1⟩ := strict_right_some_val hs1
      obtain ⟨hs2v, hsw2, hsb2⟩ := strict_down_some_val hs2
      obtain ⟨he1v, hew1, heb1⟩ := strict_right_some_val he1
      obtain ⟨he2v, hew2, heb2⟩ := strict_down_some_val he2
      subst hg
      subst hs1v
      subst hs2v
      subst he1v
      subst he2v
      constructor
      · simp only
        omega
      · simp only
        omega

/-- Witness for C3 at a concrete constructor call. -/
theorem c3_constructors_ordered_witness :
    Grid.new 10 10 = some ⟨⟨0, 0⟩, ⟨9, 9⟩⟩ ∧ Grid.Ordered ⟨⟨0, 0⟩, ⟨9, 9⟩⟩ :=
  ⟨by decide, c3_constructors_ordered.1 10 10 ⟨⟨0, 0⟩, ⟨9, 9⟩⟩ (by decide)⟩

/-- C5: for a cell within the grid and a u8 step, a strict move fails
(panics, modelled by `none`) exactly when the move would cross the border in
its direction or the raw u8 arithmetic would underflow or overflow; on
success the moved coordinate changes by exactly `step` and the other
coordinate is unchanged. -/
theorem c5_strict_moves (g : Grid) (c : Cell) (s : Nat)
    (hw : c.within g = true) (hs : s ≤ 255) :
    ((c.strict_up g s = none ↔
        c.global_depth < g.start.global_depth + s ∨ c.global_depth < s) ∧
      (∀ c', c.strict_up g s = some c' →
        c'.global_depth + s = c.global_depth ∧
        c'.global_width = c.global_width)) ∧
    ((c.strict_down g s = none ↔
        g.end_.global_depth < c.global_depth + s ∨ 255 < c.global_depth + s) ∧
      (∀ c', c.strict_down g s = some c' →
        c'.global_depth = c.global_depth + s ∧
        c'.global_width = c.global_width)) ∧
    ((c.strict_left g s = none ↔
        c.global_width < g.start.global_width + s ∨ c.global_width < s) ∧
      (∀ c', c.strict_left g s = some c' →
        c'.global_width + s = c.global_width ∧
        c'.global_depth = c.global_depth)) ∧
    ((c.strict_right g s = none ↔
        g.end_.global_width < c.global_width + s ∨ 255 < c.global_width + s) ∧
      (∀ c', c.strict_right g s = some c' →
        c'.global_width = c.global_width + s ∧
        c'.global_depth = c.global_depth)) := by
  have hwi := within_iff.mp hw
  refine ⟨?_, ?_, ?_, ?_⟩
  · rw [strict_up_eval hw]
    by_cases hc : c.global_depth < g.start.global_depth + s
    · rw [if_pos hc]
      refine ⟨iff_of_true rfl (Or.inl hc), ?_⟩
      intro c' h
      exact absurd h (by simp)
    · rw [if_neg hc]
      refine ⟨iff_of_false (by simp) (by omega), ?_⟩
      intro c' h
      rw [Option.some.injEq] at h
      subst h
      refine ⟨by simp only; omega, rfl⟩
  · rw [Cell.strict_down, Cell.will_overflow_depth, if_pos hw, Option.some_bind]
    by_cases hc : g.end_.global_depth < c.global_depth + s ∨ 255 < c.global_depth + s
    · have hg : (decide (255 - s < c.global_depth) ||
          decide (g.end_.global_depth < c.global_depth + s)) = true := by
        simp only [Bool.or_eq_true, decide_eq_true_eq]
        omega
      rw [hg, if_pos rfl]
      refine ⟨iff_of_true rfl hc, ?_⟩
      intro c' h
      exact absurd h (by simp)
    · have hg : (decide (255 - s < c.global_depth) ||
          decide (g.end_.global_depth < c.global_depth + s)) = false := by
        simp only [Bool.or_eq_false_iff, decide_eq_false_iff_not, not_lt]
        omega
      rw [hg, if_neg (by simp), add8_pos (by omega), Option.some_bind]
      refine ⟨iff_of_false (by simp) hc, ?_⟩
      intro c' h
      rw [Option.some.injEq] at h
      subst h
      exact ⟨rfl, rfl⟩
  · rw [strict_left_eval hw]
    by_cases hc : c.global_width < g.start.global_width + s
    · rw [if_pos hc]
      refine ⟨iff_of_true rfl (Or.inl hc), ?_⟩
      intro c' h
      exact absurd h (by simp)
    · rw [if_neg hc]
      refine ⟨iff_of_false (by simp) (by omega), ?_⟩
      intro c' h
      rw [Option.some.injEq] at h
      subst h
      refine ⟨by simp only; omega, rfl⟩
  · rw [Cell.strict_right, Cell.will_overflow_width, if_pos hw, Option.some_bind]
    by_cases hc : g.end_.global_width < c.global_width + s ∨ 255 < c.global_width + s
    · have hg : (decide (255 - s < c.global_width) ||
          decide (g.end_.global_width < c.global_width + s)) = true := by
        simp only [Bool.or_eq_true, decide_eq_true_eq]
        omega
      rw [hg, if_pos rfl]
      refine ⟨iff_of_true rfl hc, ?_⟩
      intro c' h
      exact absurd h (by simp)
    · have hg : (decide (255 - s < c.global_width) ||
          decide (g.end_.global_width < c.global_width + s)) = false := by
        simp only [Bool.or_eq_false_iff, decide_eq_false_iff_not, not_lt]
        omega
      rw [hg, if_neg (by simp), add8_pos (by omega), Option.some_bind]
      refine ⟨iff_of_false (by simp) hc, ?_⟩
      intro c' h
      rw [Option.some.injEq] at h
      subst h
      exact ⟨rfl, rfl⟩

/-- Witness for C5: the crate doc example, strict up by 3 from (2,2) panics. -/
theorem c5_strict_moves_witness :
    Cell.strict_up ⟨2, 2⟩ ⟨⟨0, 0⟩, ⟨9, 9⟩⟩ 3 = none :=
  ((c5_strict_moves ⟨⟨0, 0⟩, ⟨9, 9⟩⟩ ⟨2, 2⟩ 3 (by decide) (by decide)).1.1).mpr
    (by decide)

/-- C7: for a cell within a u8-representable grid, each projection lands
exactly on the named border, preserves the other axis, and is the
corresponding saturating move with the maximum u8 step magnitude. -/
theorem c7_projections (g : Grid) (c : Cell)
    (hEw : g.end_.global_width ≤ 255) (hEd : g.end_.global_depth ≤ 255)
    (hw : c.within g = true) :
    c.project_right g = some ⟨g.end_.global_width, c.global_depth⟩ ∧
    c.project_left g = some ⟨g.start.global_width, c.global_depth⟩ ∧
    c.project_up g = some ⟨c.global_width, g.start.global_depth⟩ ∧
    c.project_down g = some ⟨c.global_width, g.end_.global_depth⟩ ∧
    c.project_right g = c.saturating_right g 255 ∧
    c.project_left g = c.saturating_left g 255 ∧
    c.project_up g = c.saturating_up g 255 ∧
    c.project_down g = c.saturating_down g 255 := by
  have hwi := within_iff.mp hw
  refine ⟨?_, ?_, ?_, ?_, rfl, rfl, rfl, rfl⟩
  · rw [Cell.project_right, saturating_right_eval hw (by omega) hEw,
      show min (c.global_width + 255) g.end_.global_width =
        g.end_.global_width from by omega]
  · rw [Cell.project_left, saturating_left_eval hw,
      show max g.start.global_width (c.global_width - 255) =
        g.start.global_width from by omega]
  · rw [Cell.project_up, saturating_up_eval hw,
      show max g.start.global_depth (c.global_depth - 255) =
        g.start.global_depth from by omega]
  · rw [Cell.project_down, saturating_down_eval hw (by omega) hEd,
      show min (c.global_depth + 255) g.end_.global_depth =
        g.end_.global_depth from by omega]

/-- Witness for C7: the crate doc example, projecting (7,7) right in the
10x10 grid lands on (9,7). -/
theorem c7_projections_witness :
    Cell.project_right ⟨7, 7⟩ ⟨⟨0, 0⟩, ⟨9, 9⟩⟩ = some ⟨9, 7⟩ :=
  (c7_projections ⟨⟨0, 0⟩, ⟨9, 9⟩⟩ ⟨7, 7⟩ (by decide) (by decide) (by decide)).1

/-- C10: grid membership is closed under every movement operation: whenever
a strict, saturating, overflowing, wrapping, or projection move returns a
cell instead of panicking, the returned cell is within the grid. -/
theorem c10_move_closure (g : Grid) (c : Cell) (s : Nat)
    (hw : c.within g = true) :
    (∀ c', c.strict_up g s = some c' → c'.within g = true) ∧
    (∀ c', c.strict_down g s = some c' → c'.within g = true) ∧
    (∀ c', c.strict_left g s = some c' → c'.within g = true) ∧
    (∀ c', c.strict_right g s = some c' → c'.within g = true) ∧
    (∀ c', c.saturating_up g s = some c' → c'.within g = true) ∧
    (∀ c', c.saturating_down g s = some c' → c'.within g = true) ∧
    (∀ c', c.saturating_left g s = some c' → c'.within g = true) ∧
    (∀ c', c.saturating_right g s = some c' → c'.within g = true) ∧
    (∀ c' f, c.overflowing_up g s = some (c', f) → c'.within g = true) ∧
    (∀ c' f, c.overflowing_down g s = some (c', f) → c'.within g = true) ∧
    (∀ c' f, c.overflowing_left g s = some (c', f) → c'.within g = true) ∧
    (∀ c' f, c.overflowing_right g s = some (c', f) → c'.within g = true) ∧
    (∀ c', c.wrapping_up g s = some c' → c'.within g = true) ∧
    (∀ c', c.wrapping_down g s = some c' → c'.within g = true) ∧
    (∀ c', c.wrapping_left g s = some c' → c'.within g = true) ∧
    (∀ c', c.wrapping_right g s = some c' → c'.within g = true) ∧
    (∀ c', c.project_up g = some c' → c'.within g = true) ∧
    (∀ c', c.project_down g = some c' → c'.within g = true) ∧
    (∀ c', c.project_left g = some c' → c'.within g = true) ∧
    (∀ c', c.project_right g = some c' → c'.within g = true) := by
  have hwrap_up : ∀ c', c.wrapping_up g s = some c' → c'.within g = true := by
    intro c' h
    simp only [Cell.wrapping_up, Option.map_eq_some'] at h
    obtain ⟨⟨c1, f⟩, hp, hc⟩ := h
    subst hc
    exact overflowing_up_some_within hp
  have hwrap_down : ∀ c', c.wrapping_down g s = some c' → c'.within g = true := by
    intro c' h
    simp only [Cell.wrapping_down, Option.map_eq_some'] at h
    obtain ⟨⟨c1, f⟩, hp, hc⟩ := h
    subst hc
    exact overflowing_down_some_within hp
  have hwrap_left : ∀ c', c.wrapping_left g s = some c' → c'.within g = true := by
    intro c' h
    simp only [Cell.wrapping_left, Option.map_eq_some'] at h
    obtain ⟨⟨c1, f⟩, hp, hc⟩ := h
    subst hc
    exact overflowing_left_some_within hp
  have hwrap_right : ∀ c', c.wrapping_right g s = some c' → c'.within g = true := by
    intro c' h
    simp only [Cell.wrapping_right, Option.map_eq_some'] at h
    obtain ⟨⟨c1, f⟩, hp, hc⟩ := h
    subst hc
    exact overflowing_right_some_within hp
  exact ⟨fun c' h => strict_up_some_within h,
    fun c' h => strict_down_some_within h,
    fun c' h => strict_left_some_within h,
    fun c' h => strict_right_some_within h,
    fun c' h => saturating_up_some_within h,
    fun c' h => saturating_down_some_within h,
    fun c' h => saturating_left_some_within h,
    fun c' h => saturating_right_some_within h,
    fun c' f h => overflowing_up_some_within h,
    fun c' f h => overflowing_down_some_within h,
    fun c' f h => overflowing_left_some_within h,
    fun c' f h => overflowing_right_some_within h,
    hwrap_up, hwrap_down, hwrap_left, hwrap_right,
    fun c' h => saturating_up_some_within h,
    fun c' h => saturating_down_some_within h,
    fun c' h => saturating_left_some_within h,
    fun c' h => saturating_right_some_within h⟩

/-- Witness for C10: wrapping (2,2) down by 15 in the 10x10 grid returns
(2,7), which is within the grid. -/
theorem c10_move_closure_witness :
    Cell.within ⟨2, 7⟩ ⟨⟨0, 0⟩, ⟨9, 9⟩⟩ = true :=
  (c10_move_closure ⟨⟨0, 0⟩, ⟨9, 9⟩⟩ ⟨2, 2⟩ 15
    (by decide)).2.2.2.2.2.2.2.2.2.2.2.2.2.1 ⟨2, 7⟩ (by decide)

/-- C9: all three iterators are single-pass and non-restartable: from any
state with the consumed flag set, the advance step yields no element and
leaves the state unchanged, and no advance step ever clears the consumed
flag. -/
theorem c9_iterators_single_pass :
    (∀ it : Cells, it.consumed = true → it.next = some (none, it)) ∧
    (∀ (it it' : Cells) (y : Option Cell),
      it.next = some (y, it') → it.consumed = true → it'.consumed = true) ∧
    (∀ it : Rows, it.consumed = true → it.next = some (none, it)) ∧
    (∀ (it it' : Rows) (y : Option Grid),
      it.next = some (y, it') → it.consumed = true → it'.consumed = true) ∧
    (∀ it : Columns, it.consumed = true → it.next = some (none, it)) ∧
    (∀ (it it' : Columns) (y : Option Grid),
      it.next = some (y, it') → it.consumed = true → it'.consumed = true) := by
  have hc : ∀ it : Cells, it.consumed = true → it.next = some (none, it) := by
    intro it h
    rw [Cells.next, if_pos h]
  have hr : ∀ it : Rows, it.consumed = true → it.next = some (none, it) := by
    intro it h
    rw [Rows.next, if_pos h]
  have hl : ∀ it : Columns, it.consumed = true → it.next = some (none, it) := by
    intro it h
    rw [Columns.next, if_pos h]
  refine ⟨hc, ?_, hr, ?_, hl, ?_⟩
  · intro it it' y h hcon
    rw [hc it hcon, Option.some.injEq, Prod.mk.injEq] at h
    rw [← h.2]
    exact hcon
  · intro it it' y h hcon
    rw [hr it hcon, Option.some.injEq, Prod.mk.injEq] at h
    rw [← h.2]
    exact hcon
  · intro it it' y h hcon
    rw [hl it hcon, Option.some.injEq, Prod.mk.injEq] at h
    rw [← h.2]
    exact hcon

/-- Witness for C9 at a concrete consumed iterator state. -/
theorem c9_iterators_single_pass_witness :
    Cells.next ⟨⟨⟨0, 0⟩, ⟨9, 9⟩⟩, ⟨9, 9⟩, true⟩ =
      some (none, ⟨⟨⟨0, 0⟩, ⟨9, 9⟩⟩, ⟨9, 9⟩, true⟩) :=
  c9_iterators_single_pass.1 ⟨⟨⟨0, 0⟩, ⟨9, 9⟩⟩, ⟨9, 9⟩, true⟩ rfl

/-- C4: for a cell within a valid grid, the wrapping moves are periodic in
the step with period the axis length returned by `Grid::width` or
`Grid::depth` (which is always positive): wrapping by `s` equals wrapping by
`s % L`. -/
theorem c4_wrapping_periodic (g : Grid) (c : Cell) (s : Nat)
    (hw : c.within g = true) (hs : s ≤ 255) (hE : g.InU8) :
    (∀ W, g.width = some W →
      c.wrapping_right g s = c.wrapping_right g (s % W) ∧
      c.wrapping_left g s = c.wrapping_left g (s % W) ∧ 0 < W) ∧
    (∀ D, g.depth = some D →
      c.wrapping_down g s = c.wrapping_down g (s % D) ∧
      c.wrapping_up g s = c.wrapping_up g (s % D) ∧ 0 < D) := by
  constructor
  · intro W hWs
    obtain ⟨ho, hx, hWval⟩ := Grid.width_eq_some.mp hWs
    subst hWval
    have hs2 : s % g.wExtent ≤ 255 := le_trans (Nat.mod_le _ _) hs
    have hmm : s % g.wExtent % g.wExtent = s % g.wExtent :=
      Nat.mod_mod_of_dvd s dvd_rfl
    refine ⟨?_, ?_, Nat.succ_le_succ (Nat.zero_le _)⟩
    · rw [Cell.wrapping_right, Cell.wrapping_right,
        overflowing_right_eval hw hs hE.1 hx,
        overflowing_right_eval hw hs2 hE.1 hx]
      simp only [Option.map_some']
      congr 3
      rw [Nat.add_mod]
      conv_rhs => rw [Nat.add_mod, hmm]
    · rw [Cell.wrapping_left, Cell.wrapping_left,
        overflowing_left_eval hw hx, overflowing_left_eval hw hx]
      simp only [Option.map_some']
      congr 4
      rw [hmm]
  · intro D hDs
    obtain ⟨ho, hx, hDval⟩ := Grid.depth_eq_some.mp hDs
    subst hDval
    have hs2 : s % g.dExtent ≤ 255 := le_trans (Nat.mod_le _ _) hs
    have hmm : s % g.dExtent % g.dExtent = s % g.dExtent :=
      Nat.mod_mod_of_dvd s dvd_rfl
    refine ⟨?_, ?_, Nat.succ_le_succ (Nat.zero_le _)⟩
    · rw [Cell.wrapping_down, Cell.wrapping_down,
        overflowing_down_eval hw hs hE.2 hx,
        overflowing_down_eval hw hs2 hE.2 hx]
      simp only [Option.map_some']
      congr 3
      rw [Nat.add_mod]
      conv_rhs => rw [Nat.add_mod, hmm]
    · rw [Cell.wrapping_up, Cell.wrapping_up,
        overflowing_up_eval hw hx, overflowing_up_eval hw hx]
      simp only [Option.map_some']
      congr 4
      rw [hmm]

/-- Witness for C4: wrapping (2,2) right by 15 in the 10x10 grid equals
wrapping right by 15 mod 10. -/
theorem c4_wrapping_periodic_witness :
    Cell.wrapping_right ⟨2, 2⟩ ⟨⟨0, 0⟩, ⟨9, 9⟩⟩ 15 =
      Cell.wrapping_right ⟨2, 2⟩ ⟨⟨0, 0⟩, ⟨9, 9⟩⟩ (15 % 10) :=
  ((c4_wrapping_periodic ⟨⟨0, 0⟩, ⟨9, 9⟩⟩ ⟨2, 2⟩ 15 (by decide) (by decide)
    (by decide)).1 10 (by decide)).1

/-- C1 counterexample: in the 10x10 grid at the origin, the overflowing
right move by 5 from (7,7) has gap 2 and modulus `(5 - 2 - 1) % 10 = 2`,
and returns width 2; but `far_border - 2` is not 2, whether the far border
is taken as the left border 0 (the border opposite to the direction of
travel, in Nat or in Int) or as the right border 9. The spec formula
`far_border - ((step - g - 1) mod L)` therefore fails for the increasing
directions (down, right), which re-enter at the opposite border and add the
offset instead of subtracting it. -/
theorem c1_counterexample :
    Cell.overflowing_right ⟨7, 7⟩ ⟨⟨0, 0⟩, ⟨9, 9⟩⟩ 5 = some (⟨2, 7⟩, true) ∧
    (2 : Nat) ≠ 0 - ((5 - 2 - 1) % 10 : Nat) ∧
    (2 : Int) ≠ 0 - ((5 - 2 - 1) % 10 : Int) ∧
    (2 : Nat) ≠ 9 - ((5 - 2 - 1) % 10 : Nat) := by
  refine ⟨by decide, by decide, by decide, by decide⟩

/-- C1 (amended): for a cell within a proper grid and a u8 step, each
overflowing move returns a cell and its flag is true exactly on
border-crossing moves (step exceeding the gap to the border in the
direction of travel); on a crossing move the decreasing directions (up,
left) land on `far_border - ((step - g - 1) % L)` exactly as the spec
formula states, while the increasing directions (down, right) land on
`opposite_border + ((step - g - 1) % L)`; the formula holds for arbitrary
u8 steps, and a non-crossing move agrees with the strict move. `L` is the
extent of the axis as returned by `Grid::width` and `Grid::depth`. -/
theorem c1_overflowing_formula (g : Grid) (c : Cell) (s : Nat)
    (hP : g.Proper) (hw : c.within g = true) (hs : s ≤ 255) :
    g.width = some g.wExtent ∧ g.depth = some g.dExtent ∧
    (∃ c' f, c.overflowing_up g s = some (c', f) ∧
      (f = true ↔ c.global_depth - g.start.global_depth < s) ∧
      (f = true → c'.global_depth =
          g.end_.global_depth -
            ((s - (c.global_depth - g.start.global_depth) - 1) % g.dExtent) ∧
        c'.global_width = c.global_width) ∧
      (f = false → c.strict_up g s = some c')) ∧
    (∃ c' f, c.overflowing_down g s = some (c', f) ∧
      (f = true ↔ g.end_.global_depth - c.global_depth < s) ∧
      (f = true → c'.global_depth =
          g.start.global_depth +
            ((s - (g.end_.global_depth - c.global_depth) - 1) % g.dExtent) ∧
        c'.global_width = c.global_width) ∧
      (f = false → c.strict_down g s = some c')) ∧
    (∃ c' f, c.overflowing_left g s = some (c', f) ∧
      (f = true ↔ c.global_width - g.start.global_width < s) ∧
      (f = true → c'.global_width =
          g.end_.global_width -
            ((s - (c.global_width - g.start.global_width) - 1) % g.wExtent) ∧
        c'.global_depth = c.global_depth) ∧
      (f = false → c.strict_left g s = some c')) ∧
    (∃ c' f, c.overflowing_right g s = some (c', f) ∧
      (f = true ↔ g.end_.global_width - c.global_width < s) ∧
      (f = true → c'.global_width =
          g.start.global_width +
            ((s - (g.end_.global_width - c.global_width) - 1) % g.wExtent) ∧
        c'.global_depth = c.global_depth) ∧
      (f = false → c.strict_right g s = some c')) := by
  obtain ⟨⟨how, hod⟩, ⟨hEw, hEd⟩, hXw, hXd⟩ := hP
  have hwi := within_iff.mp hw
  have hWeq : g.wExtent = g.end_.global_width - g.start.global_width + 1 := rfl
  have hDeq : g.dExtent = g.end_.global_depth - g.start.global_depth + 1 := rfl
  refine ⟨Grid.width_eval how hXw, Grid.depth_eval hod hXd, ?_, ?_, ?_, ?_⟩
  · rw [Cell.overflowing_up, will_underflow_depth_eval hw, Option.some_bind]
    by_cases hc : c.global_depth < g.start.global_depth + s
    · simp only [hc, decide_True, if_true]
      rw [Cell.depth, if_pos hw, sub8_pos (by omega), Option.some_bind,
        sub8_pos (show c.global_depth - g.start.global_depth ≤ s by omega),
        Option.some_bind,
        sub8_pos (show 1 ≤ s - (c.global_depth - g.start.global_depth) by omega),
        Option.some_bind, Grid.depth_eval hod hXd, Option.some_bind,
        mod8_pos (by omega), Option.some_bind]
      have hm : (s - (c.global_depth - g.start.global_depth) - 1) % g.dExtent
          < g.dExtent := Nat.mod_lt _ (by omega)
      rw [sub8_pos (by omega), Option.some_bind]
      refine ⟨_, true, rfl, iff_of_true rfl (by omega), ?_, ?_⟩
      · intro _
        exact ⟨rfl, rfl⟩
      · intro hfalse
        exact absurd hfalse (by simp)
    · simp only [hc, decide_False, Bool.false_eq_true, if_false]
      rw [sub8_pos (by omega), Option.some_bind]
      refine ⟨_, false, rfl, iff_of_false (by simp) (by omega), ?_, ?_⟩
      · intro htrue
        exact absurd htrue (by simp)
      · intro _
        rw [strict_up_eval hw, if_neg hc]
  · rw [Cell.overflowing_down, will_overflow_depth_eval hw hs hEd, Option.some_bind]
    by_cases hc : g.end_.global_depth < c.global_depth + s
    · simp only [hc, decide_True, if_true]
      rw [Cell.depth_gap, if_pos hw, sub8_pos (by omega), Option.some_bind,
        sub8_pos (show g.end_.global_depth - c.global_depth ≤ s by omega),
        Option.some_bind,
        sub8_pos (show 1 ≤ s - (g.end_.global_depth - c.global_depth) by omega),
        Option.some_bind, Grid.depth_eval hod hXd, Option.some_bind,
        mod8_pos (by omega), Option.some_bind]
      have hm : (s - (g.end_.global_depth - c.global_depth) - 1) % g.dExtent
          < g.dExtent := Nat.mod_lt _ (by omega)
      rw [add8_pos (by omega), Option.some_bind]
      refine ⟨_, true, rfl, iff_of_true rfl (by omega), ?_, ?_⟩
      · intro _
        exact ⟨rfl, rfl⟩
      · intro hfalse
        exact absurd hfalse (by simp)
    · simp only [hc, decide_False, Bool.false_eq_true, if_false]
      rw [add8_pos (by omega), Option.some_bind]
      refine ⟨_, false, rfl, iff_of_false (by simp) (by omega), ?_, ?_⟩
      · intro htrue
        exact absurd htrue (by simp)
      · intro _
        rw [Cell.strict_down, will_overflow_depth_eval hw hs hEd, Option.some_bind,
          if_neg (by simp [hc]), add8_pos (by omega), Option.some_bind]
  · rw [Cell.overflowing_left, will_underflow_width_eval hw, Option.some_bind]
    by_cases hc : c.global_width < g.start.global_width + s
    · simp only [hc, decide_True, if_true]
      rw [Cell.width, if_pos hw, sub8_pos (by omega), Option.some_bind,
        sub8_pos (show c.global_width - g.start.global_width ≤ s by omega),
        Option.some_bind,
        sub8_pos (show 1 ≤ s - (c.global_width - g.start.global_width) by omega),
        Option.some_bind, Grid.width_eval how hXw, Option.some_bind,
        mod8_pos (by omega), Option.some_bind]
      have hm : (s - (c.global_width - g.start.global_width) - 1) % g.wExtent
          < g.wExtent := Nat.mod_lt _ (by omega)
      rw [sub8_pos (by omega), Option.some_bind]
      refine ⟨_, true, rfl, iff_of_true rfl (by omega), ?_, ?_⟩
      · intro _
        exact ⟨rfl, rfl⟩
      · intro hfalse
        exact absurd hfalse (by simp)
    · simp only [hc, decide_False, Bool.false_eq_true, if_false]
      rw [sub8_pos (by omega), Option.some_bind]
      refine ⟨_, false, rfl, iff_of_false (by simp) (by omega), ?_, ?_⟩
      · intro htrue
        exact absurd htrue (by simp)
      · intro _
        rw [strict_left_eval hw, if_neg hc]
  · rw [Cell.overflowing_right, will_overflow_width_eval hw hs hEw, Option.some_bind]
    by_cases hc : g.end_.global_width < c.global_width + s
    · simp only [hc, decide_True, if_true]
      rw [Cell.width_gap, if_pos hw, sub8_pos (by omega), Option.some_bind,
        sub8_pos (show g.end_.global_width - c.global_width ≤ s by omega),
        Option.some_bind,
        sub8_pos (show 1 ≤ s - (g.end_.global_width - c.global_width) by omega),
        Option.some_bind, Grid.width_eval how hXw, Option.some_bind,
        mod8_pos (by omega), Option.some_bind]
      have hm : (s - (g.end_.global_width - c.global_width) - 1) % g.wExtent
          < g.wExtent := Nat.mod_lt _ (by omega)
      rw [add8_pos (by omega), Option.some_bind]
      refine ⟨_, true, rfl, iff_of_true rfl (by omega), ?_, ?_⟩
      · intro _
        exact ⟨rfl, rfl⟩
      · intro hfalse
        exact absurd hfalse (by simp)
    · simp only [hc, decide_False, Bool.false_eq_true, if_false]
      rw [add8_pos (by omega), Option.some_bind]
      refine ⟨_, false, rfl, iff_of_false (by simp) (by omega), ?_, ?_⟩
      · intro htrue
        exact absurd htrue (by simp)
      · intro _
        rw [Cell.strict_right, will_overflow_width_eval hw hs hEw, Option.some_bind,
          if_neg (by simp [hc]), add8_pos (by omega), Option.some_bind]

/-- Witness for C1 at the spec concrete scenario: overflowing right by 5
from (7,7) in the 10x10 grid. -/
theorem c1_overflowing_formula_witness :
    ∃ c' f, Cell.overflowing_right ⟨7, 7⟩ ⟨⟨0, 0⟩, ⟨9, 9⟩⟩ 5 = some (c', f) ∧
      (f = true ↔ (9 : Nat) - 7 < 5) ∧
      (f = true → c'.global_width = 0 + ((5 - (9 - 7) - 1) %
        Grid.wExtent ⟨⟨0, 0⟩, ⟨9, 9⟩⟩) ∧ c'.global_depth = 7) ∧
      (f = false → Cell.strict_right ⟨7, 7⟩ ⟨⟨0, 0⟩, ⟨9, 9⟩⟩ 5 = some c') :=
  (c1_overflowing_formula ⟨⟨0, 0⟩, ⟨9, 9⟩⟩ ⟨7, 7⟩ 5 (by decide) (by decide)
    (by decide)).2.2.2.2.2

/-- C6 counterexample: the grid from (0,0) to (255,255) is constructible by
`From<(Cell, Cell)>` and satisfies the Region invariant, the cell (255,0)
is within it, yet the overflowing (and wrapping) right move by 1 panics:
`Grid::width` computes `255 - 0 + 1`, which overflows u8. -/
theorem c6_counterexample :
    Grid.fromCells (⟨0, 0⟩, ⟨255, 255⟩) = some ⟨⟨0, 0⟩, ⟨255, 255⟩⟩ ∧
    Grid.Ordered ⟨⟨0, 0⟩, ⟨255, 255⟩⟩ ∧
    Cell.within ⟨255, 0⟩ ⟨⟨0, 0⟩, ⟨255, 255⟩⟩ = true ∧
    Cell.overflowing_right ⟨255, 0⟩ ⟨⟨0, 0⟩, ⟨255, 255⟩⟩ 1 = none ∧
    Cell.wrapping_right ⟨255, 0⟩ ⟨⟨0, 0⟩, ⟨255, 255⟩⟩ 1 = none := by
  refine ⟨by decide, by decide, by decide, by decide, by decide⟩

/-- C6 (amended): for a proper grid (valid, with both axis extents at most
255) and a u8 step, the saturating, overflowing and wrapping moves never
fail when the starting cell is within the grid, and they fail exactly when
the starting cell is not within the grid. -/
theorem c6_soft_moves_total (g : Grid) (c : Cell) (s : Nat)
    (hP : g.Proper) (hs : s ≤ 255) :
    (c.within g = true →
      (c.saturating_up g s).isSome = true ∧
      (c.saturating_down g s).isSome = true ∧
      (c.saturating_left g s).isSome = true ∧
      (c.saturating_right g s).isSome = true ∧
      (c.overflowing_up g s).isSome = true ∧
      (c.overflowing_down g s).isSome = true ∧
      (c.overflowing_left g s).isSome = true ∧
      (c.overflowing_right g s).isSome = true ∧
      (c.wrapping_up g s).isSome = true ∧
      (c.wrapping_down g s).isSome = true ∧
      (c.wrapping_left g s).isSome = true ∧
      (c.wrapping_right g s).isSome = true) ∧
    (c.within g = false →
      c.saturating_up g s = none ∧
      c.saturating_down g s = none ∧
      c.saturating_left g s = none ∧
      c.saturating_right g s = none ∧
      c.overflowing_up g s = none ∧
      c.overflowing_down g s = none ∧
      c.overflowing_left g s = none ∧
      c.overflowing_right g s = none ∧
      c.wrapping_up g s = none ∧
      c.wrapping_down g s = none ∧
      c.wrapping_left g s = none ∧
      c.wrapping_right g s = none) := by
  obtain ⟨⟨how, hod⟩, ⟨hEw, hEd⟩, hXw, hXd⟩ := hP
  constructor
  · intro hw
    refine ⟨?_, ?_, ?_, ?_, ?_, ?_, ?_, ?_, ?_, ?_, ?_, ?_⟩
    · rw [saturating_up_eval hw]
      rfl
    · rw [saturating_down_eval hw hs hEd]
      rfl
    · rw [saturating_left_eval hw]
      rfl
    · rw [saturating_right_eval hw hs hEw]
      rfl
    · rw [overflowing_up_eval hw hXd]
      rfl
    · rw [overflowing_down_eval hw hs hEd hXd]
      rfl
    · rw [overflowing_left_eval hw hXw]
      rfl
    · rw [overflowing_right_eval hw hs hEw hXw]
      rfl
    · rw [Cell.wrapping_up, overflowing_up_eval hw hXd]
      rfl
    · rw [Cell.wrapping_down, overflowing_down_eval hw hs hEd hXd]
      rfl
    · rw [Cell.wrapping_left, overflowing_left_eval hw hXw]
      rfl
    · rw [Cell.wrapping_right, overflowing_right_eval hw hs hEw hXw]
      rfl
  · intro hwf
    have hnw : ¬ c.within g = true := by
      rw [hwf]
      simp
    refine ⟨?_, ?_, ?_, ?_, ?_, ?_, ?_, ?_, ?_, ?_, ?_, ?_⟩
    · rw [Cell.saturating_up, will_underflow_depth_not_within hnw, Option.none_bind]
    · rw [Cell.saturating_down, will_overflow_depth_not_within hnw, Option.none_bind]
    · rw [Cell.saturating_left, will_underflow_width_not_within hnw, Option.none_bind]
    · rw [Cell.saturating_right, will_overflow_width_not_within hnw, Option.none_bind]
    · rw [Cell.overflowing_up, will_underflow_depth_not_within hnw, Option.none_bind]
    · rw [Cell.overflowing_down, will_overflow_depth_not_within hnw, Option.none_bind]
    · rw [Cell.overflowing_left, will_underflow_width_not_within hnw, Option.none_bind]
    · rw [Cell.overflowing_right, will_overflow_width_not_within hnw, Option.none_bind]
    · rw [Cell.wrapping_up, Cell.overflowing_up,
        will_underflow_depth_not_within hnw, Option.none_bind]
      rfl
    · rw [Cell.wrapping_down, Cell.overflowing_down,
        will_overflow_depth_not_within hnw, Option.none_bind]
      rfl
    · rw [Cell.wrapping_left, Cell.overflowing_left,
        will_underflow_width_not_within hnw, Option.none_bind]
      rfl
    · rw [Cell.wrapping_right, Cell.overflowing_right,
        will_overflow_width_not_within hnw, Option.none_bind]
      rfl

/-- Witness for C6: in the 10x10 grid, the soft moves from (7,7) by 5 all
succeed. -/
theorem c6_soft_moves_total_witness :
    (Cell.saturating_up ⟨7, 7⟩ ⟨⟨0, 0⟩, ⟨9, 9⟩⟩ 5).isSome = true :=
  ((c6_soft_moves_total ⟨⟨0, 0⟩, ⟨9, 9⟩⟩ ⟨7, 7⟩ 5 (by decide) (by decide)).1
    (by decide)).1

/-! ### Driver lemmas for the fueled iterator runs -/

lemma collect_yield {σ α : Type} {step : σ → Option (Option α × σ)}
    {s s1 : σ} {a : α} (h : step s = some (some a, s1)) (fuel : Nat) :
    collect step (fuel + 1) s = (collect step fuel s1).map (fun l => a :: l) := by
  simp only [collect, h]

lemma collect_stop {σ α : Type} {step : σ → Option (Option α × σ)}
    {s s1 : σ} (h : step s = some (none, s1)) (fuel : Nat) :
    collect step (fuel + 1) s = some [] := by
  simp only [collect, h]

lemma collect_panic {σ α : Type} {step : σ → Option (Option α × σ)}
    {s : σ} (h : step s = none) (fuel : Nat) :
    collect step (fuel + 1) s = none := by
  simp only [collect, h]

/-! ### The Rows iterator -/

/-- The row of a grid at depth offset `r`: full width, depth 1. -/
def Grid.rowAt (g : Grid) (r : Nat) : Grid :=
  ⟨⟨g.start.global_width, g.start.global_depth + r⟩,
    ⟨g.end_.global_width, g.start.global_depth + r⟩⟩

lemma rows_fromGrid_eval {g : Grid} (hO : g.Ordered) (hE : g.InU8) :
    Rows.fromGrid g = some ⟨g, g.rowAt 0, false⟩ := by
  have hw : g.start.within g = true := by
    rw [within_iff]
    exact ⟨le_refl _, hO.1, le_refl _, hO.2⟩
  rw [Rows.fromGrid, Cell.project_right, saturating_right_eval hw (by omega) hE.1,
    Option.map_some',
    show min (g.start.global_width + 255) g.end_.global_width =
      g.end_.global_width from by
        have := hO.1
        have := hE.1
        omega]
  rfl

lemma rows_next_step {g : Grid} {r : Nat} (hO : g.Ordered) (hE : g.InU8)
    (hr : r + 1 < g.dExtent) :
    Rows.next ⟨g, g.rowAt r, false⟩ =
      some (some (g.rowAt r), ⟨g, g.rowAt (r + 1), false⟩) := by
  obtain ⟨how, hod⟩ := hO
  have hDeq : g.dExtent = g.end_.global_depth - g.start.global_depth + 1 := rfl
  have hw1 : (g.rowAt r).start.within g = true := by
    rw [within_iff]
    simp only [Grid.rowAt]
    omega
  have hw2 : (g.rowAt r).end_.within g = true := by
    rw [within_iff]
    simp only [Grid.rowAt]
    omega
  rw [Rows.next, if_neg (by simp), if_neg (show ¬ (g.rowAt r).end_ = g.end_ by
    intro h
    have := congrArg Cell.global_depth h
    simp only [Grid.rowAt] at this
    omega)]
  rw [saturating_down_eval hw1 (by omega) hE.2, Option.some_bind,
    saturating_down_eval hw2 (by omega) hE.2, Option.some_bind]
  simp only [Grid.rowAt]
  rw [show min (g.start.global_depth + r + 1) g.end_.global_depth =
    g.start.global_depth + (r + 1) from by omega]

lemma rows_next_terminal {g : Grid} (hO : g.Ordered) :
    Rows.next ⟨g, g.rowAt (g.dExtent - 1), false⟩ =
      some (some (g.rowAt (g.dExtent - 1)), ⟨g, g.rowAt (g.dExtent - 1), true⟩) := by
  have hDeq : g.dExtent = g.end_.global_depth - g.start.global_depth + 1 := rfl
  rw [Rows.next, if_neg (by simp), if_pos (show (g.rowAt (g.dExtent - 1)).end_ = g.end_ by
    show (⟨g.end_.global_width, g.start.global_depth + (g.dExtent - 1)⟩ : Cell) = g.end_
    rw [show g.start.global_depth + (g.dExtent - 1) = g.end_.global_depth from by
      have := hO.2
      omega])]

lemma rows_run {g : Grid} (hO : g.Ordered) (hE : g.InU8) :
    ∀ n r, r + n + 1 = g.dExtent →
      collect Rows.next (n + 2) ⟨g, g.rowAt r, false⟩ =
        some ((List.range' r (n + 1)).map g.rowAt) := by
  intro n
  induction n with
  | zero =>
    intro r hr
    have hrd : r = g.dExtent - 1 := by omega
    subst hrd
    rw [show (0 : Nat) + 2 = 1 + 1 from rfl,
      collect_yield (rows_next_terminal hO),
      collect_stop (show Rows.next ⟨g, g.rowAt (g.dExtent - 1), true⟩ =
        some (none, ⟨g, g.rowAt (g.dExtent - 1), true⟩) from by
          rw [Rows.next, if_pos rfl])]
    rfl
  | succ n ih =>
    intro r hr
    rw [show n + 1 + 2 = (n + 2) + 1 from rfl,
      collect_yield (rows_next_step hO hE (show r + 1 < g.dExtent by omega)),
      ih (r + 1) (by omega), Option.map_some']
    rw [show List.range' r (n + 1 + 1) = r :: List.range' (r + 1) (n + 1) from rfl,
      List.map_cons]

/-- C8: for a valid grid of depth `d`, the Rows iterator yields exactly `d`
row subgrids, each of the same width as the parent and of depth 1,
enumerating the rows from top to bottom; the rows cover the parent exactly
with no overlaps. -/
theorem c8_rows_iterator (g : Grid) (d : Nat)
    (hO : g.Ordered) (hE : g.InU8) (hd : g.depth = some d) :
    Rows.fromGrid g = some ⟨g, g.rowAt 0, false⟩ ∧
    collect Rows.next (d + 1) ⟨g, g.rowAt 0, false⟩ =
      some ((List.range d).map g.rowAt) ∧
    ((List.range d).map g.rowAt).length = d ∧
    (∀ r, r < d → (g.rowAt r).width = g.width ∧ (g.rowAt r).depth = some 1 ∧
      (g.rowAt r).start.global_depth = g.start.global_depth + r) ∧
    (∀ c : Cell, c.within g = true ↔ ∃ r, r < d ∧ c.within (g.rowAt r) = true) ∧
    (∀ r1 r2, r1 < d → r2 < d → r1 ≠ r2 →
      ∀ c : Cell, ¬(c.within (g.rowAt r1) = true ∧ c.within (g.rowAt r2) = true)) := by
  obtain ⟨hod, hXd, hdval⟩ := Grid.depth_eq_some.mp hd
  subst hdval
  have hD1 : 1 ≤ g.dExtent := by
    rw [Grid.dExtent]
    omega
  have hDeq : g.dExtent = g.end_.global_depth - g.start.global_depth + 1 := rfl
  refine ⟨rows_fromGrid_eval hO hE, ?_, by simp, ?_, ?_, ?_⟩
  · rw [show g.dExtent + 1 = (g.dExtent - 1) + 2 from by omega,
      rows_run hO hE (g.dExtent - 1) 0 (by omega),
      show g.dExtent - 1 + 1 = g.dExtent from by omega,
      ← List.range_eq_range']
  · intro r hr
    refine ⟨rfl, ?_, rfl⟩
    rw [Grid.depth]
    simp only [Grid.rowAt]
    rw [sub8_pos (le_refl _), Nat.sub_self, Option.some_bind, add8_pos (by omega)]
  · intro c
    constructor
    · intro h
      have hwi := within_iff.mp h
      refine ⟨c.global_depth - g.start.global_depth, by omega, ?_⟩
      rw [within_iff]
      simp only [Grid.rowAt]
      omega
    · intro ⟨r, hr, h⟩
      have hwi := within_iff.mp h
      simp only [Grid.rowAt] at hwi
      rw [within_iff]
      omega
  · intro r1 r2 h1 h2 hne c ⟨ha, hb⟩
    have ha2 := within_iff.mp ha
    have hb2 := within_iff.mp hb
    simp only [Grid.rowAt] at ha2 hb2
    omega

/-- Witness for C8 on the 3x3 grid from the crate doc example. -/
theorem c8_rows_iterator_witness :
    collect Rows.next 4 ⟨⟨⟨0, 0⟩, ⟨2, 2⟩⟩, Grid.rowAt ⟨⟨0, 0⟩, ⟨2, 2⟩⟩ 0, false⟩ =
      some ((List.range 3).map (Grid.rowAt ⟨⟨0, 0⟩, ⟨2, 2⟩⟩)) :=
  (c8_rows_iterator ⟨⟨0, 0⟩, ⟨2, 2⟩⟩ 3 (by decide) (by decide) (by decide)).2.1

/-! ### The Cells iterator -/

/-- The cell of a grid at row-major index `k`. -/
def Grid.cellAt (g : Grid) (k : Nat) : Cell :=
  ⟨g.start.global_width + k % g.wExtent, g.start.global_depth + k / g.wExtent⟩

/-- The row-major enumeration of the cells of a grid: each row from the
top, left to right. -/
def Grid.rowMajor (g : Grid) : List Cell :=
  (List.range g.dExtent).flatMap fun r =>
    (List.range g.wExtent).map fun i =>
      ⟨g.start.global_width + i, g.start.global_depth + r⟩

lemma map_range_mul {α : Type} (W D : Nat) (f : Nat → α) :
    (List.range (D * W)).map f =
      (List.range D).flatMap fun r => (List.range W).map fun i => f (W * r + i) := by
  induction D with
  | zero => simp
  | succ d ih =>
    rw [Nat.succ_mul, List.range_add, List.map_append, ih, List.range_succ,
      List.flatMap_append]
    congr 1
    simp only [List.flatMap_cons, List.flatMap_nil, List.append_nil,
      List.map_map]
    apply List.map_congr_left
    intro i hi
    simp only [Function.comp_apply]
    rw [Nat.mul_comm d W]

lemma mul_pred_add {W D : Nat} (hD : 0 < D) : W * D = W * (D - 1) + W := by
  obtain ⟨d1, hd1⟩ : ∃ d1, D = d1 + 1 := ⟨D - 1, by omega⟩
  subst hd1
  rw [Nat.mul_succ, Nat.add_sub_cancel]

lemma rowMajor_eq {g : Grid} :
    g.rowMajor = (List.range (g.dExtent * g.wExtent)).map g.cellAt := by
  have hW : 0 < g.wExtent := Nat.succ_pos _
  rw [Grid.rowMajor, map_range_mul g.wExtent g.dExtent g.cellAt]
  congr 1
  funext r
  apply List.map_congr_left
  intro i hi
  rw [List.mem_range] at hi
  simp only [Grid.cellAt]
  rw [Nat.mul_add_mod, Nat.mod_eq_of_lt hi, Nat.mul_add_div hW,
    Nat.div_eq_of_lt hi, Nat.add_zero]

lemma cellAt_zero {g : Grid} : g.cellAt 0 = g.start := by
  show Cell.mk (g.start.global_width + 0 % g.wExtent)
    (g.start.global_depth + 0 / g.wExtent) = g.start
  rw [Nat.zero_mod, Nat.zero_div, Nat.add_zero, Nat.add_zero]

lemma cellAt_within {g : Grid} {k : Nat} (hO : g.Ordered)
    (hk : k < g.wExtent * g.dExtent) : (g.cellAt k).within g = true := by
  have hW : 0 < g.wExtent := Nat.succ_pos _
  have hWeq : g.wExtent = g.end_.global_width - g.start.global_width + 1 := rfl
  have hDeq : g.dExtent = g.end_.global_depth - g.start.global_depth + 1 := rfl
  have hm := Nat.mod_lt k hW
  have hdiv : k / g.wExtent < g.dExtent := by
    rw [Nat.div_lt_iff_lt_mul hW]
    have hcomm : g.wExtent * g.dExtent = g.dExtent * g.wExtent := Nat.mul_comm _ _
    omega
  have hd0 : 0 ≤ k / g.wExtent := Nat.zero_le _
  have hm0 : 0 ≤ k % g.wExtent := Nat.zero_le _
  rw [within_iff]
  simp only [Grid.cellAt]
  obtain ⟨h1, h2⟩ := hO
  omega

lemma cellAt_last {g : Grid} (hO : g.Ordered) :
    g.cellAt (g.wExtent * g.dExtent - 1) = g.end_ := by
  have hW : 0 < g.wExtent := Nat.succ_pos _
  have hWeq : g.wExtent = g.end_.global_width - g.start.global_width + 1 := rfl
  have hDeq : g.dExtent = g.end_.global_depth - g.start.global_depth + 1 := rfl
  obtain ⟨d1, hd1⟩ : ∃ d1, g.dExtent = d1 + 1 := ⟨g.dExtent - 1, rfl⟩
  have hS : g.wExtent * g.dExtent - 1 = g.wExtent * d1 + (g.wExtent - 1) := by
    rw [hd1, Nat.mul_succ]
    omega
  simp only [Grid.cellAt]
  rw [hS, Nat.mul_add_mod,
    Nat.mod_eq_of_lt (show g.wExtent - 1 < g.wExtent by omega),
    Nat.mul_add_div hW,
    Nat.div_eq_of_lt (show g.wExtent - 1 < g.wExtent by omega), Nat.add_zero,
    show g.start.global_width + (g.wExtent - 1) = g.end_.global_width from by
      obtain ⟨h1, h2⟩ := hO
      omega,
    show g.start.global_depth + d1 = g.end_.global_depth from by
      obtain ⟨h1, h2⟩ := hO
      omega]

lemma cellAt_ne_end {g : Grid} {k : Nat} (hO : g.Ordered)
    (hk : k + 1 < g.wExtent * g.dExtent) : ¬ g.cellAt k = g.end_ := by
  have hW : 0 < g.wExtent := Nat.succ_pos _
  have hWeq : g.wExtent = g.end_.global_width - g.start.global_width + 1 := rfl
  have hDeq : g.dExtent = g.end_.global_depth - g.start.global_depth + 1 := rfl
  obtain ⟨h1, h2⟩ := hO
  intro h
  have hw := congrArg Cell.global_width h
  have hd := congrArg Cell.global_depth h
  simp only [Grid.cellAt] at hw hd
  have hdm := Nat.div_add_mod k g.wExtent
  have hq : k / g.wExtent = g.dExtent - 1 := by omega
  rw [hq] at hdm
  have hmul : g.wExtent * g.dExtent = g.wExtent * (g.dExtent - 1) + g.wExtent :=
    mul_pred_add (Nat.succ_pos _)
  omega

lemma cells_next_terminal {g : Grid} :
    Cells.next ⟨g, g.end_, false⟩ = some (some g.end_, ⟨g, g.end_, true⟩) := by
  rw [Cells.next, if_neg (by simp), if_pos rfl]

lemma cells_next_step {g : Grid} {k : Nat} (hO : g.Ordered) (hE : g.InU8)
    (hXw : g.end_.global_width - g.start.global_width ≤ 254)
    (hXd : g.end_.global_depth - g.start.global_depth ≤ 254)
    (hk : k + 1 < g.wExtent * g.dExtent) :
    Cells.next ⟨g, g.cellAt k, false⟩ =
      some (some (g.cellAt k), ⟨g, g.cellAt (k + 1), false⟩) := by
  have hW : 0 < g.wExtent := Nat.succ_pos _
  have hD : 0 < g.dExtent := Nat.succ_pos _
  have hWeq : g.wExtent = g.end_.global_width - g.start.global_width + 1 := rfl
  have hDeq : g.dExtent = g.end_.global_depth - g.start.global_depth + 1 := rfl
  have h1 := hO.1
  have h2 := hO.2
  have hwc : (g.cellAt k).within g = true := cellAt_within hO (by omega)
  have hm := Nat.mod_lt k hW
  have hdm := Nat.div_add_mod k g.wExtent
  have hd0 : 0 ≤ k / g.wExtent := Nat.zero_le _
  rw [Cells.next, if_neg (by simp), if_neg (cellAt_ne_end hO hk),
    overflowing_right_eval hwc (by omega) hE.1 hXw]
  simp only [Grid.cellAt]
  rw [Nat.add_sub_cancel_left]
  rcases Nat.lt_or_ge (k % g.wExtent + 1) g.wExtent with hlt | hge
  · rw [decide_eq_false
      (show ¬ g.end_.global_width <
        g.start.global_width + k % g.wExtent + 1 by omega)]
    simp only [Option.some_bind]
    have h2' : k + 1 = g.wExtent * (k / g.wExtent) + (k % g.wExtent + 1) := by
      omega
    have ha : (k + 1) % g.wExtent = k % g.wExtent + 1 := by
      rw [h2', Nat.mul_add_mod, Nat.mod_eq_of_lt hlt]
    have hb : (k + 1) / g.wExtent = k / g.wExtent := by
      rw [h2', Nat.mul_add_div hW, Nat.div_eq_of_lt hlt, Nat.add_zero]
    rw [ha, hb, Nat.mod_eq_of_lt hlt]
  · have hedge : k % g.wExtent + 1 = g.wExtent := by omega
    rw [decide_eq_true
      (show g.end_.global_width <
        g.start.global_width + k % g.wExtent + 1 by omega)]
    simp only [Option.some_bind]
    rw [hedge, Nat.mod_self, Nat.add_zero]
    have hq : k + 1 = g.wExtent * (k / g.wExtent + 1) := by
      rw [Nat.mul_succ]
      omega
    have hqlt : k / g.wExtent + 1 < g.dExtent := by
      apply Nat.lt_of_mul_lt_mul_left (a := g.wExtent)
      rw [← hq]
      exact hk
    have hwn : (⟨g.start.global_width,
        g.start.global_depth + k / g.wExtent⟩ : Cell).within g = true := by
      rw [within_iff]
      simp only
      omega
    rw [Cell.wrapping_down, overflowing_down_eval hwn (by omega) hE.2 hXd]
    simp only [Option.map_some']
    rw [Nat.add_sub_cancel_left, Nat.mod_eq_of_lt hqlt]
    simp only [Option.some_bind]
    have ha : (k + 1) % g.wExtent = 0 := by
      rw [hq, Nat.mul_mod_right]
    have hb : (k + 1) / g.wExtent = k / g.wExtent + 1 := by
      rw [hq, Nat.mul_div_cancel_left _ hW]
    rw [ha, hb]
    simp only [Nat.add_zero]

lemma cells_run {g : Grid} (hO : g.Ordered) (hE : g.InU8)
    (hXw : g.end_.global_width - g.start.global_width ≤ 254)
    (hXd : g.end_.global_depth - g.start.global_depth ≤ 254) :
    ∀ n k, k + n + 1 = g.wExtent * g.dExtent →
      collect Cells.next (n + 2) ⟨g, g.cellAt k, false⟩ =
        some ((List.range' k (n + 1)).map g.cellAt) := by
  intro n
  induction n with
  | zero =>
    intro k hr
    have hrd : k = g.wExtent * g.dExtent - 1 := by omega
    subst hrd
    rw [show (0 : Nat) + 2 = 1 + 1 from rfl, cellAt_last hO,
      collect_yield cells_next_terminal,
      collect_stop (show Cells.next ⟨g, g.end_, true⟩ =
        some (none, ⟨g, g.end_, true⟩) from by rw [Cells.next, if_pos rfl]),
      show List.range' (g.wExtent * g.dExtent - 1) 1 =
        [g.wExtent * g.dExtent - 1] from rfl,
      List.map_cons, List.map_nil, cellAt_last hO]
    rfl
  | succ n ih =>
    intro k hr
    rw [show n + 1 + 2 = (n + 2) + 1 from rfl,
      collect_yield (cells_next_step hO hE hXw hXd
        (show k + 1 < g.wExtent * g.dExtent by omega)),
      ih (k + 1) (by omega), Option.map_some',
      show List.range' k (n + 1 + 1) = k :: List.range' (k + 1) (n + 1) from rfl,
      List.map_cons]

/-- C2 counterexample: the grid from (0,0) to (255,1) is constructible and
satisfies the Region invariant, but `Grid::size` panics (`Grid::width`
overflows u8) and the Cells iterator panics after traversing the first row:
at (255,0) the advance calls `overflowing_right`, whose wrapping branch
evaluates `Grid::width`. -/
theorem c2_counterexample :
    Grid.fromCells (⟨0, 0⟩, ⟨255, 1⟩) = some ⟨⟨0, 0⟩, ⟨255, 1⟩⟩ ∧
    Grid.Ordered ⟨⟨0, 0⟩, ⟨255, 1⟩⟩ ∧
    Grid.size ⟨⟨0, 0⟩, ⟨255, 1⟩⟩ = none ∧
    collect Cells.next 600 (Cells.fromGrid ⟨⟨0, 0⟩, ⟨255, 1⟩⟩) = none := by
  refine ⟨by decide, by decide, by decide, by decide⟩

/-- C2 (amended): for a valid grid whose `size` is defined (both axis
extents at most 255, so `Grid::width` and `Grid::depth` do not overflow
u8), the Cells iterator yields exactly `size` cells in row-major order,
the first being `start`, the last being `end`, with no duplicates. -/
theorem c2_cells_iterator (g : Grid) (n : Nat)
    (hO : g.Ordered) (hE : g.InU8) (hsize : g.size = some n) :
    n = g.wExtent * g.dExtent ∧
    Cells.fromGrid g = ⟨g, g.start, false⟩ ∧
    collect Cells.next (n + 1) (Cells.fromGrid g) = some g.rowMajor ∧
    g.rowMajor.length = n ∧
    g.rowMajor.head? = some g.start ∧
    g.rowMajor.getLast? = some g.end_ ∧
    g.rowMajor.Nodup := by
  rw [Grid.size] at hsize
  simp only [Option.bind_eq_some, Option.some.injEq] at hsize
  obtain ⟨w, hw, d, hd, hn⟩ := hsize
  obtain ⟨how, hXw, hwval⟩ := Grid.width_eq_some.mp hw
  obtain ⟨hod, hXd, hdval⟩ := Grid.depth_eq_some.mp hd
  subst hwval
  subst hdval
  subst hn
  have hW : 0 < g.wExtent := Nat.succ_pos _
  have hD : 0 < g.dExtent := Nat.succ_pos _
  have hS1 : 1 ≤ g.wExtent * g.dExtent := Nat.mul_pos hW hD
  have hcomm : g.wExtent * g.dExtent = g.dExtent * g.wExtent := Nat.mul_comm _ _
  have hfrom : Cells.fromGrid g = ⟨g, g.cellAt 0, false⟩ := by
    rw [Cells.fromGrid, cellAt_zero]
  refine ⟨rfl, rfl, ?_, ?_, ?_, ?_, ?_⟩
  · rw [hfrom,
      show g.wExtent * g.dExtent + 1 = (g.wExtent * g.dExtent - 1) + 2 from by
        omega,
      cells_run hO hE hXw hXd (g.wExtent * g.dExtent - 1) 0 (by omega),
      show g.wExtent * g.dExtent - 1 + 1 = g.wExtent * g.dExtent from by omega,
      ← List.range_eq_range', rowMajor_eq, hcomm]
  · rw [rowMajor_eq, List.length_map, List.length_range]
    omega
  · rw [rowMajor_eq, List.head?_map, List.range_eq_range',
      show g.dExtent * g.wExtent = (g.dExtent * g.wExtent - 1) + 1 from by omega,
      show List.range' 0 (g.dExtent * g.wExtent - 1 + 1) =
        0 :: List.range' 1 (g.dExtent * g.wExtent - 1) from rfl]
    simp only [List.head?_cons, Option.map_some']
    rw [cellAt_zero]
  · rw [rowMajor_eq,
      show g.dExtent * g.wExtent = (g.dExtent * g.wExtent - 1) + 1 from by omega,
      List.range_succ, List.map_append, List.map_cons, List.map_nil,
      List.getLast?_concat,
      show g.dExtent * g.wExtent - 1 = g.wExtent * g.dExtent - 1 from by omega,
      cellAt_last hO]
  · rw [rowMajor_eq]
    refine List.Nodup.map_on ?_ (List.nodup_range _)
    intro x hx y hy hf
    rw [List.mem_range] at hx hy
    have ha := congrArg Cell.global_width hf
    have hb := congrArg Cell.global_depth hf
    simp only [Grid.cellAt] at ha hb
    have e1 : x % g.wExtent = y % g.wExtent := by omega
    have e2 : x / g.wExtent = y / g.wExtent := by omega
    have a1 := Nat.div_add_mod x g.wExtent
    have a2 := Nat.div_add_mod y g.wExtent
    rw [e1, e2] at a1
    omega

/-- Witness for C2 on the 3x3 grid: the iterator yields the row-major list. -/
theorem c2_cells_iterator_witness :
    collect Cells.next 10 (Cells.fromGrid ⟨⟨0, 0⟩, ⟨2, 2⟩⟩) =
      some (Grid.rowMajor ⟨⟨0, 0⟩, ⟨2, 2⟩⟩) :=
  (c2_cells_iterator ⟨⟨0, 0⟩, ⟨2, 2⟩⟩ 9 (by decide) (by decide) (by decide)).2.2.1
